import Mathlib

/-
Verification development for the Lox bytecode compiler and virtual machine
(Rust sources: tokenizer.rs, compiler.rs, chunk.rs, value.rs, object.rs,
fixed_vec.rs, heap.rs, vm.rs, main.rs).

Shallow embedding conventions:
* Rust f64 is modelled by Rat.  The only f64 operations the verified claims
  touch are cloning, equality and printing; printing is modelled by the
  function numToString below, and the textual form of a numeric literal is
  read through parseF64.
* Machine integers (u8, usize) are modelled by Nat.  Every value written
  into a byte is below 256 on the paths the claims exercise (constant-pool
  indices are emitted only while the pool length is below STACK_MAX = 255).
* A Rust panic (the todo macro, an expect call, an out-of-bounds index,
  or an explicit panic) is modelled as the error case of Except String,
  carrying the panic message.  Results that cannot panic stay pure.
* Stacks (FixedVec pushes and pops at the end) are modelled as Lean lists
  with the head as the top of the stack.
* Byte offsets of the source buffer are modelled as character offsets
  (identical on ASCII sources); the source buffer is a List Char.
-/

namespace Lox

set_option maxRecDepth 100000

/-- Position in the source buffer (tokenizer.rs); Default is all zeroes. -/
structure Position where
  line : Nat := 0
  col : Nat := 0
  byte : Nat := 0
deriving DecidableEq, Repr, Inhabited

/-- Span of a token (tokenizer.rs).  The field named end in Rust is
called stop here because end is a Lean keyword. -/
structure Span where
  start : Position := {}
  stop : Position := {}
deriving DecidableEq, Repr, Inhabited

/-- TokenKind from tokenizer.rs. -/
inductive TokenKind where
  | LeftParen | RightParen | LeftBrace | RightBrace | Comma | Dot
  | Minus | Plus | Semicolon | Slash | Star | Bang | BangEqual
  | Equal | EqualEqual | Greater | GreaterEqual | Less | LessEqual
  | Identifier | String | Number
  | And | Class | Else | False | Fun | For | If | Nil | Or | Print
  | Return | Super | This | True | Var | While
  | EOF
deriving DecidableEq, Repr, Inhabited

/-- LoxToken from tokenizer.rs. -/
structure LoxToken where
  kind : TokenKind
  span : Span := {}
deriving DecidableEq, Repr, Inhabited

def LoxToken.get_start (t : LoxToken) : Position := t.span.start

/-- LoxToken.range: the byte range of the token in the source buffer. -/
def LoxToken.rangeStart (t : LoxToken) : Nat := t.span.start.byte
def LoxToken.rangeStop (t : LoxToken) : Nat := t.span.stop.byte

/-- ErrKind of the tokenizer (tokenizer.rs). -/
inductive ErrKind where
  | InvalidChar
  | TrailingPeriod
  | UnexpectedEOF
deriving DecidableEq, Repr

/-- LoxParseErr from tokenizer.rs. -/
structure LoxParseErr where
  kind : ErrKind
  span : Span
deriving DecidableEq, Repr

def LoxParseErr.get_start (e : LoxParseErr) : Position := e.span.start

/-- Heap object (object.rs).  Only the String variant is constructible in
the compiled fragment: the compiler allocates Object.String for string
literals and the VM matches only on Object.String; the Closure, Function,
Native and Upvalue variants are never built on any path reachable from
compile or run (their construction sites are behind todo macros), so they
are omitted from the embedding. -/
inductive Object where
  | String (s : List Char)
deriving DecidableEq, Repr

/-- Value from value.rs: the tagged runtime value.  f64 is modelled as Rat. -/
inductive Value where
  | Nil
  | Boolean (b : Bool)
  | Number (n : Rat)
  | Object (o : Object)
deriving DecidableEq, Repr, Inhabited

/-- The least k with den dividing 10 ^ k, searched with enough fuel to
cover every denominator of the form 2 ^ a * 5 ^ b (for those, the least
such k is max a b, which is below den); none when den has another prime
factor, i.e. the value has no finite decimal expansion. -/
def decExpAux (den : Nat) : Nat → Nat → Option Nat
  | 0, _ => none
  | fuel + 1, k => if den ∣ 10 ^ k then some k else decExpAux den fuel (k + 1)

def decExp (den : Nat) : Option Nat := decExpAux den (den + 1) 0

/-- Model of Rust f64 Display for the numbers the VM prints.  An integral
value renders as a plain integer with no decimal point.  A value with a
finite decimal expansion renders as optional minus sign, integer part,
point, and the minimal run of fraction digits (left-padded with zeros to
k digits; by minimality of k the last digit is nonzero): the shortest
exact decimal form, which is what the Rust Display of f64 prints for
these values.  Every value parseF64 returns is of one of those two
shapes (its denominator divides a power of ten), so the num/den fallback
for values with no finite decimal expansion is unreachable from parsed
literals. -/
def numToString (q : Rat) : String :=
  if q.den = 1 then toString q.num
  else
    match decExp q.den with
    | none => toString q.num ++ "/" ++ toString q.den
    | some k =>
      let sign := if q.num < 0 then "-" else ""
      let scaled := q.num.natAbs * 10 ^ k / q.den
      let intPart := scaled / 10 ^ k
      let fracPart := scaled % 10 ^ k
      let fs := toString fracPart
      sign ++ toString intPart ++ "." ++
        String.mk (List.replicate (k - fs.length) '0') ++ fs

/-- Value.to_string (value.rs).  The Object arm is a todo macro in the
source, i.e. a panic, modelled as the error case. -/
def Value.to_string : Value → Except String String
  | .Nil => .ok "nil"
  | .Boolean b => .ok (if b then "true" else "false")
  | .Number n => .ok (numToString n)
  | .Object _ => .error "not yet implemented"

/-- The manual Clone impl of Value (value.rs).  The Object arm is a todo
macro in the source, i.e. a panic, modelled as the error case. -/
def Value.clone : Value → Except String Value
  | .Nil => .ok .Nil
  | .Boolean b => .ok (.Boolean b)
  | .Number n => .ok (.Number n)
  | .Object _ => .error "not yet implemented"

/-- OpCode from chunk.rs.  (The match in vm.rs also names an Unknown
variant, but no such variant exists in the enum in chunk.rs.) -/
inductive OpCode where
  | Constant | Nil | True | False | Pop
  | GetLocal | SetLocal | GetGlobal | DefineGlobal | SetGlobal
  | GetUpValue | SetUpValue | GetProperty | SetProperty | GetSuper
  | Equal | Greater | Less
  | Add | Subtract | Multiply | Divide
  | Not | Negate | Print
  | Jump | JumpIfFalse | Loop
  | Call | Invoke | SuperInvoke | Closure | CloseUpValue
  | Return | Class | Inherit | Method
deriving DecidableEq, Repr

/-- The u8 discriminant of each OpCode (chunk.rs). -/
def OpCode.toByte : OpCode → Nat
  | .Constant => 0 | .Nil => 1 | .True => 2 | .False => 3 | .Pop => 4
  | .GetLocal => 5 | .SetLocal => 6 | .GetGlobal => 7 | .DefineGlobal => 8
  | .SetGlobal => 9 | .GetUpValue => 10 | .SetUpValue => 11
  | .GetProperty => 12 | .SetProperty => 13 | .GetSuper => 14
  | .Equal => 15 | .Greater => 16 | .Less => 17
  | .Add => 18 | .Subtract => 19 | .Multiply => 20 | .Divide => 21
  | .Not => 22 | .Negate => 23 | .Print => 24
  | .Jump => 25 | .JumpIfFalse => 26 | .Loop => 27
  | .Call => 28 | .Invoke => 29 | .SuperInvoke => 30 | .Closure => 31
  | .CloseUpValue => 32 | .Return => 33 | .Class => 34 | .Inherit => 35
  | .Method => 36

/-- TryFrom u8 for OpCode (chunk.rs). -/
def OpCode.tryFrom (value : Nat) : Except String OpCode :=
  match value with
  | 0 => .ok .Constant | 1 => .ok .Nil | 2 => .ok .True | 3 => .ok .False
  | 4 => .ok .Pop | 5 => .ok .GetLocal | 6 => .ok .SetLocal
  | 7 => .ok .GetGlobal | 8 => .ok .DefineGlobal | 9 => .ok .SetGlobal
  | 10 => .ok .GetUpValue | 11 => .ok .SetUpValue | 12 => .ok .GetProperty
  | 13 => .ok .SetProperty | 14 => .ok .GetSuper | 15 => .ok .Equal
  | 16 => .ok .Greater | 17 => .ok .Less | 18 => .ok .Add
  | 19 => .ok .Subtract | 20 => .ok .Multiply | 21 => .ok .Divide
  | 22 => .ok .Not | 23 => .ok .Negate | 24 => .ok .Print
  | 25 => .ok .Jump | 26 => .ok .JumpIfFalse | 27 => .ok .Loop
  | 28 => .ok .Call | 29 => .ok .Invoke | 30 => .ok .SuperInvoke
  | 31 => .ok .Closure | 32 => .ok .CloseUpValue | 33 => .ok .Return
  | 34 => .ok .Class | 35 => .ok .Inherit | 36 => .ok .Method
  | other => .error ("Received invalid opcode: " ++ toString other)

/-- Chunk from chunk.rs: one bytecode byte tagged with its source line. -/
structure Chunk where
  line : Nat
  op : Nat
deriving DecidableEq, Repr

/-- STACK_MAX from vm.rs: u8 MAX as usize, i.e. 255.  It is the fixed
capacity of both the constant pool and the operand stack. -/
def STACK_MAX : Nat := 255

/-- Model of str parse to f64 restricted to the shapes the tokenizer
yields for Number tokens: one or more digits, optionally followed by a
single dot and one or more digits.  Returns none on any other shape. -/
def digitsToNat (l : List Char) : Nat :=
  l.foldl (fun a c => 10 * a + (c.toNat - 48)) 0

def parseF64 (s : List Char) : Option Rat :=
  let intPart := s.takeWhile (fun c => c.isDigit)
  let rest := s.dropWhile (fun c => c.isDigit)
  if intPart.isEmpty then none
  else
    match rest with
    | [] => some (digitsToNat intPart : Rat)
    | '.' :: frac =>
      if frac.isEmpty ∨ ¬ (frac.all (fun c => c.isDigit)) then none
      else some ((digitsToNat intPart : Rat) +
                 (digitsToNat frac : Rat) / ((10 : Rat) ^ frac.length))
    | _ => none

/-- The total function the compiler uses for a Number token; the expect
call in primary cannot fire because the tokenizer only produces spans
that parse (the claims that quantify over numeric literals carry the
parseF64 = some hypothesis explicitly). -/
def parseF64D (s : List Char) : Rat := (parseF64 s).getD 0

/-- NUM_INTERNAL_REFS from heap.rs: the number of strong references the
heap itself holds to each object (one in the intrusive list node, one in
the intern set). -/
def NUM_INTERNAL_REFS : Nat := 2

/-- One node of the heap's intrusive owning list (heap.rs LLNode): a heap
object together with the strong count of its Rc at sweep time.  With no
intervening allocation the strong count of a surviving object is not
changed by a sweep (removals only drop references to removed objects). -/
structure RcObj where
  item : Object
  strong_count : Nat
deriving DecidableEq, Repr

/-- ObjectHeap (heap.rs), reduced to the intrusive owning list that
collect_garbage walks. -/
structure ObjectHeap where
  first_obj : List RcObj
deriving DecidableEq, Repr

/-- ObjectHeap.collect_garbage (heap.rs): walk the owning list and unlink
every node whose only remaining strong references are the heap's own
(strong count equal to NUM_INTERNAL_REFS); all other nodes are kept in
order. -/
def ObjectHeap.collect_garbage (h : ObjectHeap) : ObjectHeap :=
  ⟨h.first_obj.filter (fun r => r.strong_count ≠ NUM_INTERNAL_REFS)⟩

/- ===== Tokenizer (tokenizer.rs) ===== -/

/-- Tokenizer state: the source buffer, the remaining indexed character
stream (Peekable of CharIndices) and the current position. -/
structure Tokenizer where
  source : List Char
  chars : List (Nat × Char)
  current_position : Position := {}
deriving DecidableEq, Repr

def Tokenizer.new (source : List Char) : Tokenizer :=
  ⟨source, source.enum, {}⟩

/-- Position bookkeeping of Tokenizer.next_char for a consumed character. -/
def advancePos (pos : Position) (hd : Nat × Char) : Position :=
  if hd.2 = '\n' then ⟨pos.line + 1, 0, hd.1⟩
  else ⟨pos.line, pos.col + 1, hd.1⟩

/-- Tokenizer.next_char: consume one character, updating the position;
at EOF the byte offset saturates to the source length. -/
def Tokenizer.next_char (tk : Tokenizer) : Option (Nat × Char) × Tokenizer :=
  match tk.chars with
  | [] => (none,
      { tk with current_position :=
          ⟨tk.current_position.line, tk.current_position.col, tk.source.length⟩ })
  | hd :: rest =>
    (some hd, ⟨tk.source, rest, advancePos tk.current_position hd⟩)

/-- Tokenizer.peek_position: the position the next character would get. -/
def Tokenizer.peek_position (tk : Tokenizer) : Position :=
  match tk.chars with
  | [] => ⟨tk.current_position.line, tk.current_position.col, tk.source.length⟩
  | hd :: _ => advancePos tk.current_position hd

/-- Tokenizer.match_char_if: consume the next char iff it satisfies the
predicate; returns whether it was consumed. -/
def Tokenizer.match_char_if (p : Nat × Char → Bool) (tk : Tokenizer) :
    Bool × Tokenizer :=
  match tk.chars with
  | [] => (false, tk)
  | hd :: rest =>
    if p hd then
      (true, ⟨tk.source, rest, advancePos tk.current_position hd⟩)
    else (false, tk)

def Tokenizer.match_char (c : Char) (tk : Tokenizer) : Bool × Tokenizer :=
  tk.match_char_if (fun hd => hd.2 = c)

/-- The loop of Tokenizer.match_char_while, structurally on the
character stream. -/
def matchWhileAux (p : Nat × Char → Bool) :
    List (Nat × Char) → Position → List (Nat × Char) × Position
  | [], pos => ([], pos)
  | hd :: rest, pos =>
    if p hd then matchWhileAux p rest (advancePos pos hd)
    else (hd :: rest, pos)

/-- Tokenizer.match_char_while: consume characters while they satisfy the
predicate. -/
def Tokenizer.match_char_while (p : Nat × Char → Bool) (tk : Tokenizer) :
    Tokenizer :=
  let (cs, pos) := matchWhileAux p tk.chars tk.current_position
  ⟨tk.source, cs, pos⟩

/-- Tokenizer.match_number (the opening digit was already consumed by
next): scan digits, then an optional dot that must be followed by at
least one digit; a trailing dot is a TrailingPeriod error. -/
def Tokenizer.match_number (start_pos : Position) (tk : Tokenizer) :
    Except LoxParseErr LoxToken × Tokenizer :=
  let tk1 := tk.match_char_while (fun hd => hd.2.isDigit)
  match tk1.match_char '.' with
  | (true, tk2) =>
    match tk2.match_char_if (fun hd => hd.2.isDigit) with
    | (false, tk3) =>
      (.error ⟨.TrailingPeriod, ⟨tk3.current_position, tk3.peek_position⟩⟩, tk3)
    | (true, tk3) =>
      let tk4 := tk3.match_char_while (fun hd => hd.2.isDigit)
      (.ok ⟨.Number, ⟨start_pos, tk4.peek_position⟩⟩, tk4)
  | (false, tk2) =>
    (.ok ⟨.Number, ⟨start_pos, tk2.peek_position⟩⟩, tk2)

/-- The stateful closure of Tokenizer.match_string, structurally on the
character stream: scan until an unescaped closing quote (which is left
unconsumed). -/
def stringScanAux : Bool → List (Nat × Char) → Position →
    List (Nat × Char) × Position
  | _, [], pos => ([], pos)
  | prev_bs, hd :: rest, pos =>
    if hd.2 = '\\' then stringScanAux true rest (advancePos pos hd)
    else if hd.2 = '"' then
      (if prev_bs then stringScanAux false rest (advancePos pos hd)
       else (hd :: rest, pos))
    else stringScanAux false rest (advancePos pos hd)

def Tokenizer.string_scan (tk : Tokenizer) (prev_bs : Bool) : Tokenizer :=
  let (cs, pos) := stringScanAux prev_bs tk.chars tk.current_position
  ⟨tk.source, cs, pos⟩

/-- Tokenizer.match_string (the opening quote was already consumed):
scan the body, then require the closing quote; hitting EOF instead is an
UnexpectedEOF error. -/
def Tokenizer.match_string (tk : Tokenizer) :
    Except LoxParseErr LoxToken × Tokenizer :=
  let start_pos := tk.current_position
  let tk1 := tk.string_scan false
  match tk1.match_char '"' with
  | (false, tk2) =>
    (.error ⟨.UnexpectedEOF, ⟨start_pos, tk2.peek_position⟩⟩, tk2)
  | (true, tk2) =>
    (.ok ⟨.String, ⟨start_pos, tk2.peek_position⟩⟩, tk2)

/-- Rust char is_ascii_whitespace: space, tab, newline, carriage return
and form feed. -/
def isAsciiWhitespace (c : Char) : Bool :=
  c = ' ' || c = '\t' || c = '\n' || c = '\r' || c = '\x0c'

def isAlphaUnderscore (c : Char) : Bool :=
  (('a' ≤ c ∧ c ≤ 'z') ∨ ('A' ≤ c ∧ c ≤ 'Z') ∨ c = '_' : Bool)

def isAlnumUnderscore (c : Char) : Bool :=
  isAlphaUnderscore c || c.isDigit

/-- The keyword table of Tokenizer.match_identifier. -/
def keywordKind (ident : List Char) : TokenKind :=
  if ident = "and".toList then .And
  else if ident = "class".toList then .Class
  else if ident = "else".toList then .Else
  else if ident = "false".toList then .False
  else if ident = "fun".toList then .Fun
  else if ident = "for".toList then .For
  else if ident = "if".toList then .If
  else if ident = "nil".toList then .Nil
  else if ident = "or".toList then .Or
  else if ident = "print".toList then .Print
  else if ident = "return".toList then .Return
  else if ident = "super".toList then .Super
  else if ident = "this".toList then .This
  else if ident = "true".toList then .True
  else if ident = "var".toList then .Var
  else if ident = "while".toList then .While
  else .Identifier

/-- Slice of the source buffer between two byte offsets. -/
def sliceSource (src : List Char) (a b : Nat) : List Char :=
  (src.drop a).take (b - a)

/-- Tokenizer.match_identifier (the opening letter was already consumed):
scan the identifier tail, slice its text out of the source and classify
it against the keyword table. -/
def Tokenizer.match_identifier (start_pos : Position) (tk : Tokenizer) :
    LoxToken × Tokenizer :=
  let start := tk.current_position
  let tk1 := (tk.match_char_if (fun hd => isAlphaUnderscore hd.2)).2
  let tk2 := tk1.match_char_while (fun hd => isAlnumUnderscore hd.2)
  let ident := sliceSource tk2.source start.byte tk2.peek_position.byte
  (⟨keywordKind ident, ⟨start_pos, tk2.peek_position⟩⟩, tk2)

/-- The inner loop of the block-comment branch of Tokenizer.next. -/
def Tokenizer.block_comment : Nat → Tokenizer → Tokenizer
  | 0, tk => tk
  | fuel + 1, tk =>
    let tk1 := tk.match_char_while (fun hd => hd.2 ≠ '*')
    match tk1.match_char '*' with
    | (true, tk2) =>
      match tk2.match_char '/' with
      | (true, tk3) => tk3
      | (false, tk3) =>
        if tk3.chars.isEmpty then tk3 else Tokenizer.block_comment fuel tk3
    | (false, tk2) =>
      if tk2.chars.isEmpty then tk2 else Tokenizer.block_comment fuel tk2

/-- Tokenizer Iterator next (tokenizer.rs): skip whitespace and comments,
then produce the next token or lexical error; none is EOF.  The fuel
bounds the skip loop and is always sufficient at chars.length + 1. -/
def Tokenizer.nextAux : Nat → Tokenizer →
    Option (Except LoxParseErr LoxToken) × Tokenizer
  | 0, tk => (none, tk)
  | fuel + 1, tk =>
    match tk.next_char with
    | (none, tk0) => (none, tk0)
    | (some hd, tk0) =>
      let token_start := tk0.current_position
      let mk : TokenKind → Tokenizer →
          Option (Except LoxParseErr LoxToken) × Tokenizer :=
        fun k tkx => (some (.ok ⟨k, ⟨token_start, tkx.peek_position⟩⟩), tkx)
      match hd.2 with
      | '(' => mk .LeftParen tk0
      | ')' => mk .RightParen tk0
      | '{' => mk .LeftBrace tk0
      | '}' => mk .RightBrace tk0
      | ',' => mk .Comma tk0
      | '.' => mk .Dot tk0
      | '-' => mk .Minus tk0
      | '+' => mk .Plus tk0
      | ';' => mk .Semicolon tk0
      | '/' =>
        match tk0.match_char '/' with
        | (true, tk1) =>
          let tk2 := tk1.match_char_while (fun h2 => h2.2 ≠ '\n')
          let tk3 := (tk2.match_char '\n').2
          Tokenizer.nextAux fuel tk3
        | (false, tk1) =>
          match tk1.match_char '*' with
          | (true, tk2) =>
            Tokenizer.nextAux fuel (Tokenizer.block_comment (tk2.chars.length + 1) tk2)
          | (false, tk2) => mk .Slash tk2
      | '*' => mk .Star tk0
      | '!' =>
        match tk0.match_char '=' with
        | (true, tk1) => mk .BangEqual tk1
        | (false, tk1) => mk .Bang tk1
      | '=' =>
        match tk0.match_char '=' with
        | (true, tk1) => mk .EqualEqual tk1
        | (false, tk1) => mk .Equal tk1
      | '>' =>
        match tk0.match_char '=' with
        | (true, tk1) => mk .GreaterEqual tk1
        | (false, tk1) => mk .Greater tk1
      | '<' =>
        match tk0.match_char '=' with
        | (true, tk1) => mk .LessEqual tk1
        | (false, tk1) => mk .Less tk1
      | other =>
        if other.isDigit then
          match tk0.match_number token_start with
          | (res, tk1) => (some res, tk1)
        else if other = '"' then
          match tk0.match_string with
          | (res, tk1) => (some res, tk1)
        else if isAlphaUnderscore other then
          match tk0.match_identifier token_start with
          | (tok, tk1) => (some (.ok tok), tk1)
        else if isAsciiWhitespace other then
          Tokenizer.nextAux fuel tk0
        else
          (some (.error ⟨.InvalidChar, ⟨token_start, tk0.peek_position⟩⟩), tk0)

def Tokenizer.next (tk : Tokenizer) :
    Option (Except LoxParseErr LoxToken) × Tokenizer :=
  Tokenizer.nextAux (tk.chars.length + 1) tk

/-- Drain the tokenizer into the full list of results (the iteration the
compile function performs). -/
def Tokenizer.tokenizeAux : Nat → Tokenizer → List (Except LoxParseErr LoxToken)
  | 0, _ => []
  | fuel + 1, tk =>
    match tk.next with
    | (none, _) => []
    | (some res, tk1) => res :: Tokenizer.tokenizeAux fuel tk1

def tokenize (source : List Char) : List (Except LoxParseErr LoxToken) :=
  Tokenizer.tokenizeAux (source.length + 1) (Tokenizer.new source)

/- ===== Compiler (compiler.rs) ===== -/

/-- Unexpected from compiler.rs: an unexpected-token diagnostic. -/
structure Unexpected where
  expected : List TokenKind
  actual : TokenKind
  location : Position
deriving DecidableEq, Repr

/-- CompileErrKind from compiler.rs. -/
inductive CompileErrKind where
  | Parse (e : LoxParseErr)
  | UnexpectedToken (u : Unexpected)
  | TooManyValues
  | MissingSemicolon
deriving DecidableEq, Repr

/-- CompileErr from compiler.rs. -/
structure CompileErr where
  kind : CompileErrKind
  location : Position
deriving DecidableEq, Repr

/-- Operator from compiler.rs. -/
inductive Operator where
  | Assignment | Or | And | Equal | Not | Greater | Less
  | Divide | Multiply | Add | Subtract | SignFlip
deriving DecidableEq, Repr

/-- ExpressionLeaf from compiler.rs. -/
inductive ExpressionLeaf where
  | Value (v : Value)
  | Call
  | Error (u : Unexpected)
deriving DecidableEq, Repr

/-- ExpressionTreeNode from compiler.rs (ExpressionBranch has the single
variant Operator, inlined here). -/
inductive ExpressionTreeNode where
  | Branch (op : Operator)
  | Leaf (l : ExpressionLeaf)
deriving DecidableEq, Repr

/-- BinaryTreeNode of the tree_iterators_rs crate: a value plus optional
left and right children. -/
inductive BinaryTreeNode where
  | mk (value : ExpressionTreeNode)
       (left : Option BinaryTreeNode) (right : Option BinaryTreeNode)

/-- dfs_postorder of tree_iterators_rs: left subtree, right subtree, node. -/
def BinaryTreeNode.postorder : BinaryTreeNode → List ExpressionTreeNode
  | .mk v l r =>
    (match l with | none => [] | some t => t.postorder) ++
    (match r with | none => [] | some t => t.postorder) ++ [v]

/-- Operator.to_bytecodes (compiler.rs); the Assignment, And and Or arms
are todo macros, i.e. panics. -/
def Operator.to_bytecodes : Operator → Except String (List OpCode)
  | .Assignment => .error "not yet implemented"
  | .And => .error "not yet implemented"
  | .Or => .error "not yet implemented"
  | .Equal => .ok [.Equal]
  | .Not => .ok [.Not]
  | .Greater => .ok [.Greater]
  | .Less => .ok [.Less]
  | .Divide => .ok [.Divide]
  | .Multiply => .ok [.Multiply]
  | .Add => .ok [.Add]
  | .Subtract => .ok [.Subtract]
  | .SignFlip => .ok [.Negate]

/-- The mutable state of the Compiler struct (compiler.rs): remaining
token stream, previous and current token, emitted chunks, collected
errors and the constant pool (a FixedVec of capacity STACK_MAX). -/
structure CState where
  source : List Char
  tokens : List LoxToken
  previous : Option LoxToken := none
  current : Option LoxToken := none
  chunks : List Chunk := []
  errs : List CompileErr := []
  values : List Value := []
deriving DecidableEq, Repr

/-- Compiler.location: the start of the previous token, or default. -/
def CState.location (st : CState) : Position :=
  match st.previous with
  | none => {}
  | some t => t.get_start

/-- Compiler.chunk: tag a byte with the current source line. -/
def CState.chunk (st : CState) (code : Nat) : Chunk :=
  ⟨st.location.line, code⟩

/-- Compiler.error: a CompileErr at the current location. -/
def CState.mkError (st : CState) (kind : CompileErrKind) : CompileErr :=
  ⟨kind, st.location⟩

/-- Compiler.next_token: previous becomes current, current becomes the
next token of the stream (or none). -/
def CState.next_token (st : CState) : Option LoxToken × CState :=
  match st.tokens with
  | [] => (none, { st with previous := st.current, current := none })
  | t :: rest =>
    (some t, { st with previous := st.current, current := some t, tokens := rest })

/-- Compiler.match_token: consume the next token iff it has this kind. -/
def CState.match_token (k : TokenKind) (st : CState) : Bool × CState :=
  match st.tokens with
  | [] => (false, st)
  | t :: _ => if t.kind = k then (true, (st.next_token).2) else (false, st)

def isStatementStart (k : TokenKind) : Bool :=
  match k with
  | .Class | .Fun | .Var | .For | .If | .Print | .Return => true
  | _ => false

/-- The loop of Compiler.panic_mode_recovery, structurally on the token
stream, threading the previous and current fields the way next_token
does. -/
def panicAux : List LoxToken → Option LoxToken → Option LoxToken →
    List LoxToken × Option LoxToken × Option LoxToken
  | [], p, c => ([], p, c)
  | t :: rest, p, c =>
    if isStatementStart t.kind then (t :: rest, p, c)
    else panicAux rest c (some t)

/-- Compiler.panic_mode_recovery: discard tokens until one that starts a
statement (or EOF). -/
def CState.panic_mode_recovery (st : CState) : CState :=
  let (ts, p, c) := panicAux st.tokens st.previous st.current
  { st with tokens := ts, previous := p, current := c }

/-- Self.value_node (compiler.rs): a leaf holding a runtime Value. -/
def value_node (v : Value) : BinaryTreeNode := .mk (.Leaf (.Value v)) none none

def opBranch (op : Operator) : ExpressionTreeNode := .Branch op

/-- A binary operator node as built by the or/and/equality/comparison/
term/factor loops: operator value, parsed-so-far tree on the left, next
operand on the right. -/
def binNode (op : Operator) (l r : BinaryTreeNode) : BinaryTreeNode :=
  .mk (opBranch op) (some l) (some r)

/-- The Not wrapper node the compiler synthesizes for the BangEqual,
GreaterEqual and LessEqual operators and for unary Bang: no left child,
operand on the right. -/
def notWrap (t : BinaryTreeNode) : BinaryTreeNode :=
  .mk (opBranch .Not) none (some t)

def signFlipWrap (t : BinaryTreeNode) : BinaryTreeNode :=
  .mk (opBranch .SignFlip) none (some t)

/-- The error leaf primary yields at end of input or on a token that can
not start a primary expression. -/
def primaryExpected : List TokenKind :=
  [.True, .False, .Number, .String, .Nil]

def errorLeaf (expected : List TokenKind) (actual : TokenKind)
    (st : CState) : BinaryTreeNode :=
  .mk (.Leaf (.Error ⟨expected, actual,
        (match st.previous with | none => {} | some t => t.get_start)⟩))
     none none

mutual

/-- Compiler.or, also the body of expression and assignment which only
delegate (compiler.rs).  All parser functions take explicit fuel; every
call decrements it, and the fuel chosen by Compiler.expression is always
sufficient. -/
def pOr : Nat → CState → BinaryTreeNode × CState
  | 0, st => (errorLeaf primaryExpected .EOF st, st)
  | f + 1, st =>
    let (l, st1) := pAnd f st
    pOrLoop f l st1

def pOrLoop : Nat → BinaryTreeNode → CState → BinaryTreeNode × CState
  | 0, cur, st => (cur, st)
  | f + 1, cur, st =>
    match st.match_token .Or with
    | (true, st1) =>
      let (r, st2) := pAnd f st1
      pOrLoop f (binNode .Or cur r) st2
    | (false, st1) => (cur, st1)

def pAnd : Nat → CState → BinaryTreeNode × CState
  | 0, st => (errorLeaf primaryExpected .EOF st, st)
  | f + 1, st =>
    let (l, st1) := pEquality f st
    pAndLoop f l st1

def pAndLoop : Nat → BinaryTreeNode → CState → BinaryTreeNode × CState
  | 0, cur, st => (cur, st)
  | f + 1, cur, st =>
    match st.match_token .And with
    | (true, st1) =>
      let (r, st2) := pEquality f st1
      pAndLoop f (binNode .And cur r) st2
    | (false, st1) => (cur, st1)

def pEquality : Nat → CState → BinaryTreeNode × CState
  | 0, st => (errorLeaf primaryExpected .EOF st, st)
  | f + 1, st =>
    let (l, st1) := pComparison f st
    pEqLoop f l st1

def pEqLoop : Nat → BinaryTreeNode → CState → BinaryTreeNode × CState
  | 0, cur, st => (cur, st)
  | f + 1, cur, st =>
    match st.match_token .EqualEqual with
    | (true, st1) =>
      let (r, st2) := pComparison f st1
      pEqLoop f (binNode .Equal cur r) st2
    | (false, _) =>
      match st.match_token .BangEqual with
      | (true, st1) =>
        let (r, st2) := pComparison f st1
        pEqLoop f (notWrap (binNode .Equal cur r)) st2
      | (false, st1) => (cur, st1)

def pComparison : Nat → CState → BinaryTreeNode × CState
  | 0, st => (errorLeaf primaryExpected .EOF st, st)
  | f + 1, st =>
    let (l, st1) := pTerm f st
    pCmpLoop f l st1

def pCmpLoop : Nat → BinaryTreeNode → CState → BinaryTreeNode × CState
  | 0, cur, st => (cur, st)
  | f + 1, cur, st =>
    match st.match_token .Greater with
    | (true, st1) =>
      let (r, st2) := pTerm f st1
      pCmpLoop f (binNode .Greater cur r) st2
    | (false, _) =>
      match st.match_token .GreaterEqual with
      | (true, st1) =>
        let (r, st2) := pTerm f st1
        pCmpLoop f (notWrap (binNode .Less cur r)) st2
      | (false, _) =>
        match st.match_token .Less with
        | (true, st1) =>
          let (r, st2) := pTerm f st1
          pCmpLoop f (binNode .Less cur r) st2
        | (false, _) =>
          match st.match_token .LessEqual with
          | (true, st1) =>
            let (r, st2) := pTerm f st1
            pCmpLoop f (notWrap (binNode .Greater cur r)) st2
          | (false, st1) => (cur, st1)

def pTerm : Nat → CState → BinaryTreeNode × CState
  | 0, st => (errorLeaf primaryExpected .EOF st, st)
  | f + 1, st =>
    let (l, st1) := pFactor f st
    pTermLoop f l st1

def pTermLoop : Nat → BinaryTreeNode → CState → BinaryTreeNode × CState
  | 0, cur, st => (cur, st)
  | f + 1, cur, st =>
    match st.match_token .Minus with
    | (true, st1) =>
      let (r, st2) := pFactor f st1
      pTermLoop f (binNode .Subtract cur r) st2
    | (false, _) =>
      match st.match_token .Plus with
      | (true, st1) =>
        let (r, st2) := pFactor f st1
        pTermLoop f (binNode .Add cur r) st2
      | (false, st1) => (cur, st1)

def pFactor : Nat → CState → BinaryTreeNode × CState
  | 0, st => (errorLeaf primaryExpected .EOF st, st)
  | f + 1, st =>
    let (l, st1) := pUnary f st
    pFactorLoop f l st1

def pFactorLoop : Nat → BinaryTreeNode → CState → BinaryTreeNode × CState
  | 0, cur, st => (cur, st)
  | f + 1, cur, st =>
    match st.match_token .Star with
    | (true, st1) =>
      let (r, st2) := pUnary f st1
      pFactorLoop f (binNode .Multiply cur r) st2
    | (false, _) =>
      match st.match_token .Slash with
      | (true, st1) =>
        let (r, st2) := pUnary f st1
        pFactorLoop f (binNode .Divide cur r) st2
      | (false, st1) => (cur, st1)

def pUnary : Nat → CState → BinaryTreeNode × CState
  | 0, st => (errorLeaf primaryExpected .EOF st, st)
  | f + 1, st =>
    match st.match_token .Bang with
    | (true, st1) =>
      let (r, st2) := pUnary f st1
      (notWrap r, st2)
    | (false, _) =>
      match st.match_token .Minus with
      | (true, st1) =>
        let (r, st2) := pUnary f st1
        (signFlipWrap r, st2)
      | (false, st1) => pCall f st1

/-- Compiler.call just delegates to primary (compiler.rs). -/
def pCall : Nat → CState → BinaryTreeNode × CState
  | 0, st => (errorLeaf primaryExpected .EOF st, st)
  | f + 1, st => pPrimary f st

def pPrimary : Nat → CState → BinaryTreeNode × CState
  | 0, st => (errorLeaf primaryExpected .EOF st, st)
  | f + 1, st =>
    match st.next_token with
    | (none, st1) => (errorLeaf primaryExpected .EOF st1, st1)
    | (some token, st1) =>
      match token.kind with
      | .True => (value_node (.Boolean true), st1)
      | .False => (value_node (.Boolean false), st1)
      | .Number =>
        (value_node (.Number (parseF64D
          (sliceSource st1.source token.rangeStart token.rangeStop))), st1)
      | .String =>
        let source := sliceSource st1.source token.rangeStart token.rangeStop
        (value_node (.Object (.String ((source.drop 1).dropLast))), st1)
      | .Nil => (value_node .Nil, st1)
      | .LeftParen =>
        let (result, st2) := pOr f st1
        match st2.match_token .RightParen with
        | (true, st3) => (result, st3)
        | (false, st3) =>
          (errorLeaf [.RightParen]
            (match st3.tokens.head? with
             | none => .EOF
             | some t => t.kind) st3, st3)
      | other => (errorLeaf primaryExpected other st1, st1)

end

/-- Compiler.expression (via assignment and or, both pass-throughs in the
source); the fuel is generous enough for the descent. -/
def Compiler.expression (st : CState) : BinaryTreeNode × CState :=
  pOr (16 * (st.tokens.length + 1)) st

/-- One node of the dfs_postorder emission loop in
Compiler.expression_statement: operators emit their bytecodes, value
leaves emit a Constant instruction plus pool index (TooManyValues once
the pool is at capacity), error leaves record an UnexpectedToken
diagnostic and set the had_err flag; a Call leaf is a todo panic. -/
def emitNode (st : CState) (had_err : Bool) (node : ExpressionTreeNode) :
    Except String (CState × Bool) :=
  match node with
  | .Branch op => do
    let codes ← op.to_bytecodes
    .ok ({ st with chunks := st.chunks ++ codes.map (fun c => st.chunk c.toByte) },
         had_err)
  | .Leaf (.Value v) =>
    let st1 := { st with chunks := st.chunks ++ [st.chunk OpCode.Constant.toByte] }
    if st1.values.length = STACK_MAX then
      .ok ({ st1 with errs := st1.errs ++ [st1.mkError .TooManyValues] }, had_err)
    else
      .ok ({ st1 with chunks := st1.chunks ++ [st1.chunk st1.values.length],
                      values := st1.values ++ [v] }, had_err)
  | .Leaf (.Error u) =>
    .ok ({ st with errs := st.errs ++ [st.mkError (.UnexpectedToken u)] }, true)
  | .Leaf .Call => .error "not yet implemented"

def emitNodes : List ExpressionTreeNode → CState → Bool →
    Except String (CState × Bool)
  | [], st, he => .ok (st, he)
  | n :: rest, st, he => do
    let (st1, he1) ← emitNode st he n
    emitNodes rest st1 he1

/-- Compiler.expression_statement (compiler.rs): parse one expression and
emit its postorder; the returned flag is true when no error leaf was
seen (Ok of the Rust function). -/
def Compiler.expression_statement (st : CState) : Except String (CState × Bool) := do
  let (expr, st1) := Compiler.expression st
  let (st2, had_err) ← emitNodes expr.postorder st1 false
  .ok (st2, !had_err)

/-- Compiler.statement (compiler.rs).  The Class, Fun and If branches are
todo macros, i.e. panics.  The returned flag is false for the Err case
of the Rust function (which triggers panic-mode recovery). -/
def Compiler.statement (st : CState) : Except String (CState × Bool) :=
  if (st.match_token .Class).1 then .error "not yet implemented"
  else if (st.match_token .Fun).1 then .error "not yet implemented"
  else
    match st.match_token .Print with
    | (true, st1) => do
      let (st2, ok) ← Compiler.expression_statement st1
      if !ok then .ok (st2, false)
      else
        let st3 := { st2 with chunks := st2.chunks ++ [st2.chunk OpCode.Print.toByte] }
        match st3.match_token .Semicolon with
        | (false, st4) =>
          .ok ({ st4 with errs := st4.errs ++ [st4.mkError .MissingSemicolon] }, false)
        | (true, st4) => .ok (st4, true)
    | (false, stp) =>
      if (stp.match_token .If).1 then .error "not yet implemented"
      else do
        let (st2, ok) ← Compiler.expression_statement stp
        if !ok then .ok (st2, false)
        else
          match st2.match_token .Semicolon with
          | (false, st3) =>
            .ok ({ st3 with errs := st3.errs ++ [st3.mkError .MissingSemicolon] }, false)
          | (true, st3) =>
            .ok ({ st3 with chunks := st3.chunks ++ [st3.chunk OpCode.Pop.toByte] }, true)

/-- Compiler.declaration (compiler.rs): run statements while tokens
remain; the first statement Err propagates. -/
def Compiler.declaration : Nat → CState → Except String (CState × Bool)
  | 0, st => .ok (st, true)
  | f + 1, st =>
    if st.tokens.isEmpty then .ok (st, true)
    else do
      let (st1, ok) ← Compiler.statement st
      if ok then Compiler.declaration f st1 else .ok (st1, false)

/-- The driving loop of Compiler.compile: declaration, with panic-mode
recovery on Err, until the token stream is exhausted. -/
def Compiler.compileLoop : Nat → CState → Except String CState
  | 0, st => .ok st
  | f + 1, st =>
    if st.tokens.isEmpty then .ok st
    else do
      match ← Compiler.declaration (st.tokens.length + 1) st with
      | (st1, true) => Compiler.compileLoop f st1
      | (st1, false) => Compiler.compileLoop f st1.panic_mode_recovery

/-- Compiler.compile (compiler.rs): drive the statement loop, append the
implicit Return, and reject the output when any error was recorded. -/
def Compiler.compile (source : List Char) (tokens : List LoxToken) :
    Except String (Except (List CompileErr) (List Chunk × List Value)) := do
  let st0 : CState := { source := source, tokens := tokens }
  let st1 ← Compiler.compileLoop (tokens.length + 1) st0
  let st2 := { st1 with chunks := st1.chunks ++ [st1.chunk OpCode.Return.toByte] }
  if st2.errs.length > 0 then .ok (.error st2.errs)
  else .ok (.ok (st2.chunks, st2.values))

/-- The tokenizer-error accumulation loop of the free function compile
(compiler.rs, lines 15 to 27), verbatim: the FIRST error only replaces
the None accumulator by an empty vector and is itself discarded; each
LATER error is pushed. -/
def collectErrs (results : List (Except LoxParseErr LoxToken)) :
    Option (List LoxParseErr) :=
  results.foldl
    (fun acc r =>
      match r with
      | .ok _ => acc
      | .error e =>
        match acc with
        | none => some []
        | some l => some (l ++ [e]))
    none

/-- The free function compile (compiler.rs): tokenize, bail out with the
collected lexical errors if any were seen, otherwise run the Compiler
over the token list. -/
def compile (source : List Char) :
    Except String (Except (List CompileErr) (List Chunk × List Value)) :=
  let results := tokenize source
  let tokens := results.filterMap (fun r => r.toOption)
  match collectErrs results with
  | some errs =>
    .ok (.error (errs.map (fun e => ⟨.Parse e, e.get_start⟩)))
  | none => Compiler.compile source tokens

/- ===== VM (vm.rs) ===== -/

/-- RunTimeErrKind from vm.rs. -/
inductive RunTimeErrKind where
  | ArithmeticOnNonNumber
  | ComparisonOnNonNumber
  | BooleanOperationOnObject
  | BooleanOperationOnNumber
deriving DecidableEq, Repr

/-- Display for RunTimeErrKind (vm.rs). -/
def RunTimeErrKind.message : RunTimeErrKind → String
  | .ArithmeticOnNonNumber =>
    "Attempted to perform arithmetic/math operations on a non-number."
  | .ComparisonOnNonNumber =>
    "Attempted to perform comparison operations on a non-number."
  | .BooleanOperationOnObject =>
    "Attempted to perform boolean (and/or) operations on an object."
  | .BooleanOperationOnNumber =>
    "Attempted to perform boolean (and/or) operations on a number."

/-- RunTimeErr from vm.rs: an error kind plus the source line of the
offending instruction. -/
structure RunTimeErr where
  line : Nat
  kind : RunTimeErrKind
deriving DecidableEq, Repr

/-- Display for RunTimeErr (vm.rs). -/
def RunTimeErr.message (e : RunTimeErr) : String :=
  "[line: " ++ toString e.line ++ "] Error: " ++ e.kind.message

/-- The VM struct (vm.rs): code, instruction pointer, constant pool,
operand stack (head is the top), the two intern tables, plus the lines
printed so far (the observable stdout of the program). -/
structure VMState where
  code : List Chunk
  ip : Nat := 0
  compiled_values : List Value
  runtime_values : List Value := []
  compiled_strings : List (List Char) := []
  runtime_strings : List (List Char) := []
  output : List String := []
deriving DecidableEq, Repr

/-- VM::new.  The third argument of the call site in the run function is
result.2, a component the pair returned by compile does not have (the
snapshot does not type-check there); the intern table the VM starts with
is modelled as the set passed in. -/
def VM.new (code : List Chunk) (values : List Value)
    (strings : List (List Char)) : VMState :=
  { code := code, compiled_values := values, compiled_strings := strings }

/-- How one VM execution ends (vm.rs VMErr plus the two outcomes that are
not VMErr values): ok is normal Return, runtimeErr and vmPanic and
outOfIterations are the three VMErr variants (vmPanic is the caught
opcode-decode failure), and rustPanic models a Rust panic (todo macro,
expect, slice index) aborting the process. -/
inductive VMResult where
  | ok (st : VMState)
  | runtimeErr (e : RunTimeErr) (st : VMState)
  | vmPanic (msg : String) (st : VMState)
  | outOfIterations (st : VMState)
  | rustPanic (msg : String) (st : VMState)
deriving DecidableEq, Repr

/-- VM::push_value; the FixedVec push expect fires when the operand stack
is at STACK_MAX. -/
def VMState.push_value (st : VMState) (v : Value) : Except String VMState :=
  if st.runtime_values.length ≥ STACK_MAX then
    .error "Runtime to never have too many values"
  else .ok { st with runtime_values := v :: st.runtime_values }

/-- VM::pop_value; the expect fires on an empty operand stack. -/
def VMState.pop_value (st : VMState) : Except String (Value × VMState) :=
  match st.runtime_values with
  | [] => .error "Popped value to be populated."
  | v :: rest => .ok (v, { st with runtime_values := rest })

/-- VM::read_constant (vm.rs), entered with ip already advanced to the
operand byte: look up the pool slot, clone the pooled Value (this is a
Rust panic for every Object constant, value.rs Clone), push it and step
past the operand.  The string re-interning branch after the clone is
dead code, because clone has already panicked on every Object value, so
the model never reaches it. -/
def VMState.read_constant (st : VMState) : Except String VMState := do
  match st.code[st.ip]? with
  | none => .error "index out of bounds"
  | some operand =>
    match st.compiled_values[operand.op]? with
    | none => .error "Value pointed to to be populated."
    | some pooled => do
      let value ← pooled.clone
      if st.runtime_values.length ≥ STACK_MAX then
        .error "There to never be too many values at runtime"
      else
        .ok { st with runtime_values := value :: st.runtime_values,
                      ip := st.ip + 1 }

/-- One iteration of the fetch-decode-execute loop of VM::run can either
continue with a successor state or halt with a final result. -/
inductive StepRes where
  | cont (st : VMState)
  | halt (r : VMResult)
deriving DecidableEq, Repr

/-- Advance past the current instruction. -/
def VMState.bump (st : VMState) : VMState := { st with ip := st.ip + 1 }

/-- One iteration of VM::run (vm.rs): fetch the byte at ip (a Rust index
panic when ip is out of bounds), decode it (a caught VMErr Panic when the
byte is no opcode, after printing the message), execute the instruction.
Unimplemented opcodes are todo macros, i.e. Rust panics. -/
def VM.step (st : VMState) : StepRes :=
  match st.code[st.ip]? with
  | none => .halt (.rustPanic "index out of bounds" st)
  | some chunk =>
    match OpCode.tryFrom chunk.op with
    | .error msg =>
      .halt (.vmPanic msg { st with output := st.output ++ [msg] })
    | .ok op =>
      match op with
      | .Constant =>
        match VMState.read_constant { st with ip := st.ip + 1 } with
        | .ok st1 => .cont st1
        | .error m => .halt (.rustPanic m st)
      | .Pop =>
        match st.pop_value with
        | .error m => .halt (.rustPanic m st)
        | .ok (_, st1) => .cont st1.bump
      | .Equal =>
        (match st.pop_value with
         | .error m => .halt (.rustPanic m st)
         | .ok (b, st1) =>
           match b with
           | .Nil =>
             (match st1.pop_value with
              | .error m => .halt (.rustPanic m st1)
              | .ok (a, st2) =>
                let res := match a with | .Nil => true | _ => false
                match st2.push_value (.Boolean res) with
                | .error m => .halt (.rustPanic m st2)
                | .ok st3 => .cont st3.bump)
           | .Boolean bb =>
             (match st1.pop_value with
              | .error m => .halt (.rustPanic m st1)
              | .ok (a, st2) =>
                let res := match a with | .Boolean ab => ab = bb | _ => false
                match st2.push_value (.Boolean res) with
                | .error m => .halt (.rustPanic m st2)
                | .ok st3 => .cont st3.bump)
           | .Number nb =>
             (match st1.pop_value with
              | .error m => .halt (.rustPanic m st1)
              | .ok (a, st2) =>
                let res := match a with | .Number na => na = nb | _ => false
                match st2.push_value (.Boolean res) with
                | .error m => .halt (.rustPanic m st2)
                | .ok st3 => .cont st3.bump)
           | .Object ob =>
             -- the inner if let has no else arm: when the second popped
             -- value is not an Object, nothing is pushed at all
             (match st1.pop_value with
              | .error m => .halt (.rustPanic m st1)
              | .ok (a, st2) =>
                match a with
                | .Object oa =>
                  (match st2.push_value (.Boolean (oa = ob)) with
                   | .error m => .halt (.rustPanic m st2)
                   | .ok st3 => .cont st3.bump)
                | _ => .cont st2.bump))
      | .Greater =>
        (match st.pop_value with
         | .error m => .halt (.rustPanic m st)
         | .ok (b, st1) =>
           match b with
           | .Number nb =>
             (match st1.pop_value with
              | .error m => .halt (.rustPanic m st1)
              | .ok (a, st2) =>
                match a with
                | .Number na =>
                  (match st2.push_value (.Boolean (nb < na)) with
                   | .error m => .halt (.rustPanic m st2)
                   | .ok st3 => .cont st3.bump)
                | _ => .halt (.runtimeErr ⟨chunk.line, .ComparisonOnNonNumber⟩ st2))
           | _ => .halt (.runtimeErr ⟨chunk.line, .ComparisonOnNonNumber⟩ st1))
      | .Less =>
        (match st.pop_value with
         | .error m => .halt (.rustPanic m st)
         | .ok (b, st1) =>
           match b with
           | .Number nb =>
             (match st1.pop_value with
              | .error m => .halt (.rustPanic m st1)
              | .ok (a, st2) =>
                match a with
                | .Number na =>
                  (match st2.push_value (.Boolean (na < nb)) with
                   | .error m => .halt (.rustPanic m st2)
                   | .ok st3 => .cont st3.bump)
                | _ => .halt (.runtimeErr ⟨chunk.line, .ComparisonOnNonNumber⟩ st2))
           | _ => .halt (.runtimeErr ⟨chunk.line, .ComparisonOnNonNumber⟩ st1))
      | .Add =>
        (match st.pop_value with
         | .error m => .halt (.rustPanic m st)
         | .ok (b, st1) =>
           match b with
           | .Number nb =>
             (match st1.pop_value with
              | .error m => .halt (.rustPanic m st1)
              | .ok (a, st2) =>
                match a with
                | .Number na =>
                  (match st2.push_value (.Number (na + nb)) with
                   | .error m => .halt (.rustPanic m st2)
                   | .ok st3 => .cont st3.bump)
                | _ => .halt (.runtimeErr ⟨chunk.line, .ArithmeticOnNonNumber⟩ st2))
           | .Object ob =>
             -- String concatenation; as in the Equal arm, a non-Object
             -- second operand falls through with nothing pushed
             (match ob with
              | .String sb =>
                match st1.pop_value with
                | .error m => .halt (.rustPanic m st1)
                | .ok (a, st2) =>
                  match a with
                  | .Object (.String sa) =>
                    let new_str := sa ++ sb
                    if new_str ∈ st2.compiled_strings then
                      (match st2.push_value (.Object (.String new_str)) with
                       | .error m => .halt (.rustPanic m st2)
                       | .ok st3 => .cont st3.bump)
                    else
                      let st3 := { st2 with runtime_strings :=
                        if new_str ∈ st2.runtime_strings then st2.runtime_strings
                        else new_str :: st2.runtime_strings }
                      (match st3.push_value (.Object (.String new_str)) with
                       | .error m => .halt (.rustPanic m st3)
                       | .ok st4 => .cont st4.bump)
                  | _ => .cont st2.bump)
           | _ => .halt (.runtimeErr ⟨chunk.line, .ArithmeticOnNonNumber⟩ st1))
      | .Subtract =>
        (match st.pop_value with
         | .error m => .halt (.rustPanic m st)
         | .ok (b, st1) =>
           match b with
           | .Number nb =>
             (match st1.pop_value with
              | .error m => .halt (.rustPanic m st1)
              | .ok (a, st2) =>
                match a with
                | .Number na =>
                  (match st2.push_value (.Number (na - nb)) with
                   | .error m => .halt (.rustPanic m st2)
                   | .ok st3 => .cont st3.bump)
                | _ => .halt (.runtimeErr ⟨chunk.line, .ArithmeticOnNonNumber⟩ st2))
           | _ => .halt (.runtimeErr ⟨chunk.line, .ArithmeticOnNonNumber⟩ st1))
      | .Multiply =>
        (match st.pop_value with
         | .error m => .halt (.rustPanic m st)
         | .ok (b, st1) =>
           match b with
           | .Number nb =>
             (match st1.pop_value with
              | .error m => .halt (.rustPanic m st1)
              | .ok (a, st2) =>
                match a with
                | .Number na =>
                  (match st2.push_value (.Number (na * nb)) with
                   | .error m => .halt (.rustPanic m st2)
                   | .ok st3 => .cont st3.bump)
                | _ => .halt (.runtimeErr ⟨chunk.line, .ArithmeticOnNonNumber⟩ st2))
           | _ => .halt (.runtimeErr ⟨chunk.line, .ArithmeticOnNonNumber⟩ st1))
      | .Divide =>
        -- Rat division models f64 division away from zero divisors;
        -- no verified claim touches division
        (match st.pop_value with
         | .error m => .halt (.rustPanic m st)
         | .ok (b, st1) =>
           match b with
           | .Number nb =>
             (match st1.pop_value with
              | .error m => .halt (.rustPanic m st1)
              | .ok (a, st2) =>
                match a with
                | .Number na =>
                  (match st2.push_value (.Number (na / nb)) with
                   | .error m => .halt (.rustPanic m st2)
                   | .ok st3 => .cont st3.bump)
                | _ => .halt (.runtimeErr ⟨chunk.line, .ArithmeticOnNonNumber⟩ st2))
           | _ => .halt (.runtimeErr ⟨chunk.line, .ArithmeticOnNonNumber⟩ st1))
      | .Not =>
        (match st.pop_value with
         | .error m => .halt (.rustPanic m st)
         | .ok (v, st1) =>
           match v with
           | .Nil =>
             (match st1.push_value (.Boolean true) with
              | .error m => .halt (.rustPanic m st1)
              | .ok st2 => .cont st2.bump)
           | .Boolean b =>
             (match st1.push_value (.Boolean (!b)) with
              | .error m => .halt (.rustPanic m st1)
              | .ok st2 => .cont st2.bump)
           | .Number _ =>
             .halt (.runtimeErr ⟨chunk.line, .BooleanOperationOnNumber⟩ st1)
           | .Object _ =>
             .halt (.runtimeErr ⟨chunk.line, .BooleanOperationOnObject⟩ st1))
      | .Negate =>
        (match st.pop_value with
         | .error m => .halt (.rustPanic m st)
         | .ok (v, st1) =>
           match v with
           | .Number n =>
             (match st1.push_value (.Number (-n)) with
              | .error m => .halt (.rustPanic m st1)
              | .ok st2 => .cont st2.bump)
           | _ => .halt (.runtimeErr ⟨chunk.line, .ArithmeticOnNonNumber⟩ st1))
      | .Print =>
        (match st.pop_value with
         | .error m => .halt (.rustPanic m st)
         | .ok (v, st1) =>
           match v.to_string with
           | .error m => .halt (.rustPanic m st1)
           | .ok s => .cont { st1 with output := st1.output ++ [s], ip := st1.ip + 1 })
      | .Return => .halt (.ok st)
      | _ => .halt (.rustPanic "not yet implemented" st)

/-- The bounded fetch-decode-execute loop of VM::run: at most the given
number of iterations, then OutOfIterations. -/
def VM.runFor : Nat → VMState → VMResult
  | 0, st => .outOfIterations st
  | f + 1, st =>
    match VM.step st with
    | .halt r => r
    | .cont st1 => VM.runFor f st1

/-- VM::run (vm.rs): the loop with its fixed ceiling of 1,000,000
iterations. -/
def VM.run (st : VMState) : VMResult := VM.runFor 1000000 st

/- ===== run (vm.rs, lines 12 to 42) ===== -/

/-- What the process run produces: the exit code, whether a VM was
started, the lines the program printed, plus diagnostic lines. -/
structure RunResult where
  exit : Nat
  vmStarted : Bool
  vmOutput : List String
  diagnostics : List String
deriving DecidableEq, Repr

/-- Debug-format model for compile diagnostics (exact text unchecked by
any claim). -/
def CompileErr.message (e : CompileErr) : String :=
  "[line: " ++ toString e.location.line ++ ", column: " ++
    toString e.location.col ++ "] Error: " ++
    (match e.kind with
     | .Parse _ => "Parse"
     | .UnexpectedToken _ => "UnexpectedToken"
     | .TooManyValues => "TooManyValues"
     | .MissingSemicolon => "MissingSemicolon")

def outOfIterationsMessage : String :=
  "VM exceeded 1 million operations while executing the program. Execution has been terminated."

/-- The free function run (vm.rs): compile; on compile errors print them
and exit 65 without constructing a VM; otherwise run the VM and map its
outcome to the exit code (SUCCESS = 0, FAILURE = 1, 65, 70).  A Rust
panic (modelled exit code 101, the Rust panic abort) escapes this
mapping. -/
def lox_run (program : List Char) : RunResult :=
  match compile program with
  | .error msg => ⟨101, false, [], [msg]⟩
  | .ok (.error errs) => ⟨65, false, [], errs.map CompileErr.message⟩
  | .ok (.ok (chunks, values)) =>
    match VM.run (VM.new chunks values []) with
    | .ok st => ⟨0, true, st.output, []⟩
    | .runtimeErr e st => ⟨70, true, st.output, [e.message]⟩
    | .vmPanic _ st => ⟨1, true, st.output, ["VM internally panicked"]⟩
    | .outOfIterations st => ⟨0, true, st.output, [outOfIterationsMessage]⟩
    | .rustPanic m st => ⟨101, true, st.output, [m]⟩

/- ===== Definitions supporting the claim statements and witnesses ===== -/

/-- The exit-code mapping claimed by the specification, written as a
function of the compile and VM outcomes, to be compared with what
lox_run actually returns (the 101 cases model Rust panic aborts, which
escape the mapping in run). -/
def specExitCode (p : List Char) : Nat :=
  match compile p with
  | .error _ => 101
  | .ok (.error _) => 65
  | .ok (.ok (chunks, values)) =>
    match VM.run (VM.new chunks values []) with
    | .ok _ => 0
    | .runtimeErr _ _ => 70
    | .vmPanic _ _ => 1
    | .outOfIterations _ => 0
    | .rustPanic _ _ => 101

/- ===== Claim theorems ===== -/

/-- A VM state about to execute Equal whose top (right, first-popped)
operand is an Object and whose second operand is Nil — the concrete
input on which claim C4 as stated fails. -/
def eqObjectNilState : VMState :=
  { code := [⟨0, 15⟩], compiled_values := [],
    runtime_values := [.Object (.String ['x']), .Nil] }

/-- A compile state whose constant pool already holds STACK_MAX = 255
values — per the claim a 256-entry pool would still accept one more. -/
def fullPoolState : CState :=
  { source := [], tokens := [], values := List.replicate 255 .Nil }

/-- The value three halves as a reduced rational, the parse of the
literal one-point-five; used to witness decimal rendering. -/
def w1rat : Rat := ⟨3, 2, by decide, by decide⟩

/-- Concrete parser states for the C5 witness: the token streams of the
sources 1 bang-equal 2, 1 greater-equal 2 and 1 less-equal 2. -/
def w5tokNum1 : LoxToken := ⟨.Number, ⟨⟨0,1,0⟩, ⟨0,2,1⟩⟩⟩

/-- Concrete compiler states the C2 witness instantiates the claim with:
the programs print-one and bare-one, both missing the final Semicolon. -/
def w2tokPrint : LoxToken := ⟨.Print, ⟨⟨0,1,0⟩, ⟨0,6,5⟩⟩⟩

def w5tokNum2 : LoxToken := ⟨.Number, ⟨⟨0,4,3⟩, ⟨0,4,4⟩⟩⟩

def w5tokNE : LoxToken := ⟨.BangEqual, ⟨⟨0,2,1⟩, ⟨0,4,3⟩⟩⟩

def w5tokGE : LoxToken := ⟨.GreaterEqual, ⟨⟨0,2,1⟩, ⟨0,4,3⟩⟩⟩

def w5tokLE : LoxToken := ⟨.LessEqual, ⟨⟨0,2,1⟩, ⟨0,4,3⟩⟩⟩

def w5st0 (src : List Char) (op : LoxToken) : CState :=
  { source := src, tokens := [w5tokNum1, op, w5tokNum2] }

def w5st1 (src : List Char) (op : LoxToken) : CState :=
  { source := src, tokens := [op, w5tokNum2],
    previous := none, current := some w5tokNum1 }

def w5st1c (src : List Char) (op : LoxToken) : CState :=
  { source := src, tokens := [w5tokNum2],
    previous := some w5tokNum1, current := some op }

def w5st2 (src : List Char) (op : LoxToken) : CState :=
  { source := src, tokens := [],
    previous := some op, current := some w5tokNum2 }

def w2tokNum : LoxToken := ⟨.Number, ⟨⟨0,7,6⟩, ⟨0,7,7⟩⟩⟩

def w2st2print : CState :=
  { source := "print 1".toList, tokens := [],
    previous := some w2tokPrint, current := some w2tokNum,
    chunks := [⟨0, 0⟩, ⟨0, 0⟩], errs := [], values := [.Number 1] }

def w2tokNumBare : LoxToken := ⟨.Number, ⟨⟨0,1,0⟩, ⟨0,1,1⟩⟩⟩

def w2st2bare : CState :=
  { source := "1".toList, tokens := [],
    previous := none, current := some w2tokNumBare,
    chunks := [⟨0, 0⟩, ⟨0, 0⟩], errs := [], values := [.Number 1] }


/-- The token streams and final compiler states of the multi-statement
programs one-semicolon-two and print-one-two the C2 witness runs through
the compile loop: each contains a statement not terminated by a
Semicolon and compiles to completion with one MissingSemicolon
recorded. -/
def w2tok12 : List LoxToken :=
  [⟨.Number, ⟨⟨0,1,0⟩, ⟨0,2,1⟩⟩⟩, ⟨.Semicolon, ⟨⟨0,2,1⟩, ⟨0,3,2⟩⟩⟩,
   ⟨.Number, ⟨⟨0,4,3⟩, ⟨0,4,4⟩⟩⟩]

def w2fin12 : CState :=
  { source := "1; 2".toList, tokens := [],
    previous := some ⟨.Semicolon, ⟨⟨0,2,1⟩, ⟨0,3,2⟩⟩⟩,
    current := some ⟨.Number, ⟨⟨0,4,3⟩, ⟨0,4,4⟩⟩⟩,
    chunks := [⟨0,0⟩, ⟨0,0⟩, ⟨0,4⟩, ⟨0,0⟩, ⟨0,1⟩],
    errs := [⟨.MissingSemicolon, ⟨0,2,1⟩⟩],
    values := [.Number 1, .Number 2] }

def w2tok1p2 : List LoxToken :=
  [⟨.Print, ⟨⟨0,1,0⟩, ⟨0,6,5⟩⟩⟩, ⟨.Number, ⟨⟨0,7,6⟩, ⟨0,8,7⟩⟩⟩,
   ⟨.Number, ⟨⟨0,9,8⟩, ⟨0,9,9⟩⟩⟩]

def w2fin1p2 : CState :=
  { source := "print 1 2".toList, tokens := [],
    previous := some ⟨.Number, ⟨⟨0,7,6⟩, ⟨0,8,7⟩⟩⟩,
    current := some ⟨.Number, ⟨⟨0,9,8⟩, ⟨0,9,9⟩⟩⟩,
    chunks := [⟨0,0⟩, ⟨0,0⟩, ⟨0,24⟩],
    errs := [⟨.MissingSemicolon, ⟨0,1,0⟩⟩],
    values := [.Number 1] }


/- ===== Helper lemmas ===== -/

theorem collectErrs_map_ok (ts : List LoxToken) :
    collectErrs (ts.map Except.ok) = none := by
  have go : ∀ l : List LoxToken,
      List.foldl
        (fun acc r =>
          match r with
          | .ok _ => acc
          | .error e =>
            match acc with
            | none => some []
            | some l => some (l ++ [e]))
        (none : Option (List LoxParseErr)) (l.map Except.ok) = none := by
    intro l
    induction l with
    | nil => rfl
    | cons hd tl ih => simpa using ih
  exact go ts

theorem filterMap_toOption (ts : List LoxToken) :
    (ts.map (Except.ok (ε := LoxParseErr))).filterMap (fun r => r.toOption)
      = ts := by
  induction ts with
  | nil => rfl
  | cons hd tl ih => simpa [Except.toOption] using ih

/-- When tokenization produces only tokens, the free compile function is
exactly the Compiler run over those tokens. -/
theorem compile_of_tokenize (src : List Char) (ts : List LoxToken)
    (htok : tokenize src = ts.map Except.ok) :
    compile src = Compiler.compile src ts := by
  unfold compile
  rw [htok]
  simp only [collectErrs_map_ok, filterMap_toOption]

theorem panic_recovery_nil (st : CState) (h : st.tokens = []) :
    st.panic_mode_recovery = st := by
  cases st
  simp_all [CState.panic_mode_recovery, panicAux]

theorem compileLoop_nil (f : Nat) (st : CState) (h : st.tokens = []) :
    Compiler.compileLoop f st = .ok st := by
  cases f with
  | zero => rfl
  | succ g => simp [Compiler.compileLoop, h]

/-- On compile errors the run function prints them and exits 65; no VM is
constructed and no program output exists. -/
theorem lox_run_compile_error (p : List Char) (errs : List CompileErr)
    (h : compile p = .ok (.error errs)) :
    lox_run p = ⟨65, false, [], errs.map CompileErr.message⟩ := by
  simp [lox_run, h]

/-- Compiler.next_token never touches the collected errors. -/
theorem next_token_errs (st : CState) : ((st.next_token).2).errs = st.errs := by
  rcases h : st.tokens with _ | ⟨t, ts⟩ <;> simp [CState.next_token, h]

/-- Compiler.match_token never touches the collected errors. -/
theorem match_token_errs (k : TokenKind) (st : CState) :
    ((st.match_token k).2).errs = st.errs := by
  rcases h : st.tokens with _ | ⟨t, ts⟩
  · simp [CState.match_token, h]
  · simp only [CState.match_token, h]
    split
    · exact next_token_errs st
    · rfl

/-- A failing match_token depends only on the token stream: any state
with the same tokens also fails and is returned unchanged. -/
theorem match_token_false_ext (k : TokenKind) (st st' : CState)
    (ht : st'.tokens = st.tokens) (h : (st.match_token k).1 = false) :
    st'.match_token k = (false, st') := by
  rcases hts : st.tokens with _ | ⟨t, ts⟩
  · simp [CState.match_token, ht, hts]
  · by_cases hk : t.kind = k
    · simp [CState.match_token, hts, hk] at h
    · simp [CState.match_token, ht, hts, hk]

/-- None of the mutually recursive parser functions touches the collected
errors: parsing only consumes tokens and shifts the previous and current
fields; diagnostics are recorded later, by the emission loop.  Proved by
one induction on the shared fuel across all fifteen functions. -/
theorem parser_errs_preserved : ∀ f : Nat,
    (∀ st, ((pOr f st).2).errs = st.errs) ∧
    (∀ cur st, ((pOrLoop f cur st).2).errs = st.errs) ∧
    (∀ st, ((pAnd f st).2).errs = st.errs) ∧
    (∀ cur st, ((pAndLoop f cur st).2).errs = st.errs) ∧
    (∀ st, ((pEquality f st).2).errs = st.errs) ∧
    (∀ cur st, ((pEqLoop f cur st).2).errs = st.errs) ∧
    (∀ st, ((pComparison f st).2).errs = st.errs) ∧
    (∀ cur st, ((pCmpLoop f cur st).2).errs = st.errs) ∧
    (∀ st, ((pTerm f st).2).errs = st.errs) ∧
    (∀ cur st, ((pTermLoop f cur st).2).errs = st.errs) ∧
    (∀ st, ((pFactor f st).2).errs = st.errs) ∧
    (∀ cur st, ((pFactorLoop f cur st).2).errs = st.errs) ∧
    (∀ st, ((pUnary f st).2).errs = st.errs) ∧
    (∀ st, ((pCall f st).2).errs = st.errs) ∧
    (∀ st, ((pPrimary f st).2).errs = st.errs) := by
  intro f
  induction f with
  | zero =>
    exact ⟨fun st => rfl, fun cur st => rfl, fun st => rfl, fun cur st => rfl,
      fun st => rfl, fun cur st => rfl, fun st => rfl, fun cur st => rfl,
      fun st => rfl, fun cur st => rfl, fun st => rfl, fun cur st => rfl,
      fun st => rfl, fun st => rfl, fun st => rfl⟩
  | succ g ih =>
    obtain ⟨iOr, iOrL, iAnd, iAndL, iEq, iEqL, iCmp, iCmpL, iTm, iTmL,
      iFc, iFcL, iUn, iCa, iPr⟩ := ih
    have hPr : ∀ st, ((pPrimary (g + 1) st).2).errs = st.errs := by
      intro st
      rcases hn : st.next_token with ⟨ot, st1⟩
      have h1 : st1.errs = st.errs := by
        have := next_token_errs st; rw [hn] at this; exact this
      cases ot with
      | none => simp only [pPrimary, hn]; exact h1
      | some token =>
        rcases token with ⟨kind, span⟩
        cases kind
        case LeftParen =>
          rcases hO : pOr g st1 with ⟨result, st2⟩
          have h2 : st2.errs = st1.errs := by
            have := iOr st1; rw [hO] at this; exact this
          rcases hm : st2.match_token .RightParen with ⟨b, st3⟩
          have h3 : st3.errs = st2.errs := by
            have := match_token_errs .RightParen st2; rw [hm] at this; exact this
          cases b <;> simp only [pPrimary, hn, hO, hm] <;> rw [h3, h2, h1]
        all_goals (simp only [pPrimary, hn]; exact h1)
    have hCa : ∀ st, ((pCall (g + 1) st).2).errs = st.errs := by
      intro st
      simp only [pCall]
      exact iPr st
    have hUn : ∀ st, ((pUnary (g + 1) st).2).errs = st.errs := by
      intro st
      rcases hm : st.match_token .Bang with ⟨b, st1⟩
      have h1 : st1.errs = st.errs := by
        have := match_token_errs .Bang st; rw [hm] at this; exact this
      cases b with
      | true =>
        rcases hU : pUnary g st1 with ⟨r, st2⟩
        have h2 : st2.errs = st1.errs := by
          have := iUn st1; rw [hU] at this; exact this
        simp only [pUnary, hm, hU]
        rw [h2, h1]
      | false =>
        rcases hm2 : st.match_token .Minus with ⟨b2, st1m⟩
        have h1m : st1m.errs = st.errs := by
          have := match_token_errs .Minus st; rw [hm2] at this; exact this
        cases b2 with
        | true =>
          rcases hU : pUnary g st1m with ⟨r, st2⟩
          have h2 : st2.errs = st1m.errs := by
            have := iUn st1m; rw [hU] at this; exact this
          simp only [pUnary, hm, hm2, hU]
          rw [h2, h1m]
        | false =>
          simp only [pUnary, hm, hm2]
          rw [iCa st1m, h1m]
    have hFcL : ∀ cur st, ((pFactorLoop (g + 1) cur st).2).errs = st.errs := by
      intro cur st
      rcases hm : st.match_token .Star with ⟨b, st1⟩
      have h1 : st1.errs = st.errs := by
        have := match_token_errs .Star st; rw [hm] at this; exact this
      cases b with
      | true =>
        rcases hU : pUnary g st1 with ⟨r, st2⟩
        have h2 : st2.errs = st1.errs := by
          have := iUn st1; rw [hU] at this; exact this
        simp only [pFactorLoop, hm, hU]
        rw [iFcL _ st2, h2, h1]
      | false =>
        rcases hm2 : st.match_token .Slash with ⟨b2, st1m⟩
        have h1m : st1m.errs = st.errs := by
          have := match_token_errs .Slash st; rw [hm2] at this; exact this
        cases b2 with
        | true =>
          rcases hU : pUnary g st1m with ⟨r, st2⟩
          have h2 : st2.errs = st1m.errs := by
            have := iUn st1m; rw [hU] at this; exact this
          simp only [pFactorLoop, hm, hm2, hU]
          rw [iFcL _ st2, h2, h1m]
        | false =>
          simp only [pFactorLoop, hm, hm2]
          exact h1m
    have hFc : ∀ st, ((pFactor (g + 1) st).2).errs = st.errs := by
      intro st
      rcases hA : pUnary g st with ⟨l, st1⟩
      have h1 : st1.errs = st.errs := by
        have := iUn st; rw [hA] at this; exact this
      simp only [pFactor, hA]
      rw [iFcL l st1, h1]
    have hTmL : ∀ cur st, ((pTermLoop (g + 1) cur st).2).errs = st.errs := by
      intro cur st
      rcases hm : st.match_token .Minus with ⟨b, st1⟩
      have h1 : st1.errs = st.errs := by
        have := match_token_errs .Minus st; rw [hm] at this; exact this
      cases b with
      | true =>
        rcases hU : pFactor g st1 with ⟨r, st2⟩
        have h2 : st2.errs = st1.errs := by
          have := iFc st1; rw [hU] at this; exact this
        simp only [pTermLoop, hm, hU]
        rw [iTmL _ st2, h2, h1]
      | false =>
        rcases hm2 : st.match_token .Plus with ⟨b2, st1m⟩
        have h1m : st1m.errs = st.errs := by
          have := match_token_errs .Plus st; rw [hm2] at this; exact this
        cases b2 with
        | true =>
          rcases hU : pFactor g st1m with ⟨r, st2⟩
          have h2 : st2.errs = st1m.errs := by
            have := iFc st1m; rw [hU] at this; exact this
          simp only [pTermLoop, hm, hm2, hU]
          rw [iTmL _ st2, h2, h1m]
        | false =>
          simp only [pTermLoop, hm, hm2]
          exact h1m
    have hTm : ∀ st, ((pTerm (g + 1) st).2).errs = st.errs := by
      intro st
      rcases hA : pFactor g st with ⟨l, st1⟩
      have h1 : st1.errs = st.errs := by
        have := iFc st; rw [hA] at this; exact this
      simp only [pTerm, hA]
      rw [iTmL l st1, h1]
    have hCmpL : ∀ cur st, ((pCmpLoop (g + 1) cur st).2).errs = st.errs := by
      intro cur st
      rcases hm1 : st.match_token .Greater with ⟨b1, s1⟩
      have e1 : s1.errs = st.errs := by
        have := match_token_errs .Greater st; rw [hm1] at this; exact this
      cases b1 with
      | true =>
        rcases hT : pTerm g s1 with ⟨r, s2⟩
        have e2 : s2.errs = s1.errs := by
          have := iTm s1; rw [hT] at this; exact this
        simp only [pCmpLoop, hm1, hT]
        rw [iCmpL _ s2, e2, e1]
      | false =>
        rcases hm2 : st.match_token .GreaterEqual with ⟨b2, s1b⟩
        have e1b : s1b.errs = st.errs := by
          have := match_token_errs .GreaterEqual st; rw [hm2] at this; exact this
        cases b2 with
        | true =>
          rcases hT : pTerm g s1b with ⟨r, s2⟩
          have e2 : s2.errs = s1b.errs := by
            have := iTm s1b; rw [hT] at this; exact this
          simp only [pCmpLoop, hm1, hm2, hT]
          rw [iCmpL _ s2, e2, e1b]
        | false =>
          rcases hm3 : st.match_token .Less with ⟨b3, s1c⟩
          have e1c : s1c.errs = st.errs := by
            have := match_token_errs .Less st; rw [hm3] at this; exact this
          cases b3 with
          | true =>
            rcases hT : pTerm g s1c with ⟨r, s2⟩
            have e2 : s2.errs = s1c.errs := by
              have := iTm s1c; rw [hT] at this; exact this
            simp only [pCmpLoop, hm1, hm2, hm3, hT]
            rw [iCmpL _ s2, e2, e1c]
          | false =>
            rcases hm4 : st.match_token .LessEqual with ⟨b4, s1d⟩
            have e1d : s1d.errs = st.errs := by
              have := match_token_errs .LessEqual st; rw [hm4] at this; exact this
            cases b4 with
            | true =>
              rcases hT : pTerm g s1d with ⟨r, s2⟩
              have e2 : s2.errs = s1d.errs := by
                have := iTm s1d; rw [hT] at this; exact this
              simp only [pCmpLoop, hm1, hm2, hm3, hm4, hT]
              rw [iCmpL _ s2, e2, e1d]
            | false =>
              simp only [pCmpLoop, hm1, hm2, hm3, hm4]
              exact e1d
    have hCmp : ∀ st, ((pComparison (g + 1) st).2).errs = st.errs := by
      intro st
      rcases hA : pTerm g st with ⟨l, st1⟩
      have h1 : st1.errs = st.errs := by
        have := iTm st; rw [hA] at this; exact this
      simp only [pComparison, hA]
      rw [iCmpL l st1, h1]
    have hEqL : ∀ cur st, ((pEqLoop (g + 1) cur st).2).errs = st.errs := by
      intro cur st
      rcases hm1 : st.match_token .EqualEqual with ⟨b1, s1⟩
      have e1 : s1.errs = st.errs := by
        have := match_token_errs .EqualEqual st; rw [hm1] at this; exact this
      cases b1 with
      | true =>
        rcases hT : pComparison g s1 with ⟨r, s2⟩
        have e2 : s2.errs = s1.errs := by
          have := iCmp s1; rw [hT] at this; exact this
        simp only [pEqLoop, hm1, hT]
        rw [iEqL _ s2, e2, e1]
      | false =>
        rcases hm2 : st.match_token .BangEqual with ⟨b2, s1b⟩
        have e1b : s1b.errs = st.errs := by
          have := match_token_errs .BangEqual st; rw [hm2] at this; exact this
        cases b2 with
        | true =>
          rcases hT : pComparison g s1b with ⟨r, s2⟩
          have e2 : s2.errs = s1b.errs := by
            have := iCmp s1b; rw [hT] at this; exact this
          simp only [pEqLoop, hm1, hm2, hT]
          rw [iEqL _ s2, e2, e1b]
        | false =>
          simp only [pEqLoop, hm1, hm2]
          exact e1b
    have hEq : ∀ st, ((pEquality (g + 1) st).2).errs = st.errs := by
      intro st
      rcases hA : pComparison g st with ⟨l, st1⟩
      have h1 : st1.errs = st.errs := by
        have := iCmp st; rw [hA] at this; exact this
      simp only [pEquality, hA]
      rw [iEqL l st1, h1]
    have hAndL : ∀ cur st, ((pAndLoop (g + 1) cur st).2).errs = st.errs := by
      intro cur st
      rcases hm : st.match_token .And with ⟨b, st1⟩
      have h1 : st1.errs = st.errs := by
        have := match_token_errs .And st; rw [hm] at this; exact this
      cases b with
      | true =>
        rcases hA : pEquality g st1 with ⟨r, st2⟩
        have h2 : st2.errs = st1.errs := by
          have := iEq st1; rw [hA] at this; exact this
        simp only [pAndLoop, hm, hA]
        rw [iAndL _ st2, h2, h1]
      | false =>
        simp only [pAndLoop, hm]
        exact h1
    have hAnd : ∀ st, ((pAnd (g + 1) st).2).errs = st.errs := by
      intro st
      rcases hA : pEquality g st with ⟨l, st1⟩
      have h1 : st1.errs = st.errs := by
        have := iEq st; rw [hA] at this; exact this
      simp only [pAnd, hA]
      rw [iAndL l st1, h1]
    have hOrL : ∀ cur st, ((pOrLoop (g + 1) cur st).2).errs = st.errs := by
      intro cur st
      rcases hm : st.match_token .Or with ⟨b, st1⟩
      have h1 : st1.errs = st.errs := by
        have := match_token_errs .Or st; rw [hm] at this; exact this
      cases b with
      | true =>
        rcases hA : pAnd g st1 with ⟨r, st2⟩
        have h2 : st2.errs = st1.errs := by
          have := iAnd st1; rw [hA] at this; exact this
        simp only [pOrLoop, hm, hA]
        rw [iOrL _ st2, h2, h1]
      | false =>
        simp only [pOrLoop, hm]
        exact h1
    have hOr : ∀ st, ((pOr (g + 1) st).2).errs = st.errs := by
      intro st
      rcases hA : pAnd g st with ⟨l, st1⟩
      have h1 : st1.errs = st.errs := by
        have := iAnd st; rw [hA] at this; exact this
      simp only [pOr, hA]
      rw [iOrL l st1, h1]
    exact ⟨hOr, hOrL, hAnd, hAndL, hEq, hEqL, hCmp, hCmpL, hTm, hTmL,
      hFc, hFcL, hUn, hCa, hPr⟩

/-- Emitting one postorder node only appends to the collected errors. -/
theorem emitNode_errs_mono (st : CState) (he : Bool) (n : ExpressionTreeNode)
    (st' : CState) (he' : Bool) (h : emitNode st he n = .ok (st', he')) :
    ∃ δ, st'.errs = st.errs ++ δ := by
  cases n with
  | Branch op =>
    cases op <;>
      simp [emitNode, Operator.to_bytecodes, Bind.bind, Except.bind,
        Except.instMonad] at h <;>
      exact ⟨[], by rw [← h.1]; simp⟩
  | Leaf lf =>
    cases lf with
    | Value v =>
      rw [emitNode] at h
      split at h
      · simp at h
        exact ⟨[_], by rw [← h.1]⟩
      · simp at h
        exact ⟨[], by rw [← h.1]; simp⟩
    | Error u =>
      simp [emitNode] at h
      exact ⟨[_], by rw [← h.1]⟩
    | Call => simp [emitNode] at h

/-- The postorder emission loop only appends to the collected errors. -/
theorem emitNodes_errs_mono : ∀ (ns : List ExpressionTreeNode) (st : CState)
    (he : Bool) (st' : CState) (he' : Bool),
    emitNodes ns st he = .ok (st', he') → ∃ δ, st'.errs = st.errs ++ δ := by
  intro ns
  induction ns with
  | nil =>
    intro st he st' he' h
    simp [emitNodes] at h
    exact ⟨[], by rw [← h.1]; simp⟩
  | cons n rest ih =>
    intro st he st' he' h
    rw [emitNodes] at h
    rcases hE : emitNode st he n with e | ⟨st1, he1⟩
    · rw [hE] at h; simp [Bind.bind, Except.bind] at h
    · rw [hE] at h
      simp only [Bind.bind, Except.bind] at h
      obtain ⟨d1, hd1⟩ := emitNode_errs_mono st he n st1 he1 hE
      obtain ⟨d2, hd2⟩ := ih st1 he1 st' he' h
      exact ⟨d1 ++ d2, by rw [hd2, hd1, List.append_assoc]⟩

theorem expression_statement_errs_mono (st st' : CState) (ok : Bool)
    (h : Compiler.expression_statement st = .ok (st', ok)) :
    ∃ δ, st'.errs = st.errs ++ δ := by
  rw [Compiler.expression_statement] at h
  rcases hP : Compiler.expression st with ⟨expr, st1⟩
  have h1 : st1.errs = st.errs := by
    have := (parser_errs_preserved (16 * (st.tokens.length + 1))).1 st
    rw [Compiler.expression] at hP
    rw [hP] at this
    exact this
  rw [hP] at h
  simp only [Bind.bind, Except.bind] at h
  rcases hE : emitNodes expr.postorder st1 false with e | ⟨st2, he⟩
  · rw [hE] at h; simp at h
  · rw [hE] at h
    simp only [Except.ok.injEq, Prod.mk.injEq] at h
    obtain ⟨d, hd⟩ := emitNodes_errs_mono expr.postorder st1 false st2 he hE
    exact ⟨d, by rw [← h.1, hd, h1]⟩

/-- Compiler.statement only appends to the collected errors, whichever
branch runs and whichever flag it returns. -/
theorem statement_errs_mono (st st' : CState) (flag : Bool)
    (h : Compiler.statement st = .ok (st', flag)) :
    ∃ δ, st'.errs = st.errs ++ δ := by
  rw [Compiler.statement] at h
  split at h
  · simp at h
  split at h
  · simp at h
  split at h
  case _ st1 heq =>
    have h1 : st1.errs = st.errs := by
      have := match_token_errs .Print st; rw [heq] at this; exact this
    simp only [Bind.bind, Except.bind] at h
    rcases hes : Compiler.expression_statement st1 with e | ⟨st2, ok2⟩
    · rw [hes] at h; simp at h
    · rw [hes] at h
      obtain ⟨d, hd⟩ := expression_statement_errs_mono st1 st2 ok2 hes
      cases ok2 with
      | false =>
        simp at h
        exact ⟨d, by rw [← h.1, hd, h1]⟩
      | true =>
        simp only [Bool.not_true, Bool.false_eq_true, if_false] at h
        rcases hm : ({ st2 with chunks := st2.chunks ++ [st2.chunk OpCode.Print.toByte] }
            : CState).match_token .Semicolon with ⟨b, st4⟩
        have h4 : st4.errs = st2.errs := by
          have := match_token_errs .Semicolon
            ({ st2 with chunks := st2.chunks ++ [st2.chunk OpCode.Print.toByte] } : CState)
          rw [hm] at this; exact this
        rw [hm] at h
        cases b with
        | false =>
          simp only [Except.ok.injEq, Prod.mk.injEq] at h
          exact ⟨d ++ [st4.mkError .MissingSemicolon], by
            rw [← h.1]
            simp only []
            rw [h4, hd, h1, List.append_assoc]⟩
        | true =>
          simp only [Except.ok.injEq, Prod.mk.injEq] at h
          exact ⟨d, by rw [← h.1, h4, hd, h1]⟩
  case _ stp heq =>
    have h1 : stp.errs = st.errs := by
      have := match_token_errs .Print st; rw [heq] at this; exact this
    split at h
    · simp at h
    simp only [Bind.bind, Except.bind] at h
    rcases hes : Compiler.expression_statement stp with e | ⟨st2, ok2⟩
    · rw [hes] at h; simp at h
    · rw [hes] at h
      obtain ⟨d, hd⟩ := expression_statement_errs_mono stp st2 ok2 hes
      cases ok2 with
      | false =>
        simp at h
        exact ⟨d, by rw [← h.1, hd, h1]⟩
      | true =>
        simp only [Bool.not_true, Bool.false_eq_true, if_false] at h
        rcases hm : st2.match_token .Semicolon with ⟨b, st3⟩
        have h3 : st3.errs = st2.errs := by
          have := match_token_errs .Semicolon st2
          rw [hm] at this; exact this
        rw [hm] at h
        cases b with
        | false =>
          simp only [Except.ok.injEq, Prod.mk.injEq] at h
          exact ⟨d ++ [st3.mkError .MissingSemicolon], by
            rw [← h.1]
            simp only []
            rw [h3, hd, h1, List.append_assoc]⟩
        | true =>
          simp only [Except.ok.injEq, Prod.mk.injEq] at h
          exact ⟨d, by rw [← h.1]; simp only []; rw [h3, hd, h1]⟩

/-- Panic-mode recovery never touches the collected errors. -/
theorem panic_recovery_errs (st : CState) :
    st.panic_mode_recovery.errs = st.errs := by
  rcases h : panicAux st.tokens st.previous st.current with ⟨ts, p, c⟩
  simp [CState.panic_mode_recovery, h]

/-- Compiler.declaration only appends to the collected errors. -/
theorem declaration_errs_mono : ∀ (f : Nat) (st st' : CState) (flag : Bool),
    Compiler.declaration f st = .ok (st', flag) →
    ∃ δ, st'.errs = st.errs ++ δ := by
  intro f
  induction f with
  | zero =>
    intro st st' flag h
    simp [Compiler.declaration] at h
    exact ⟨[], by rw [← h.1]; simp⟩
  | succ g ih =>
    intro st st' flag h
    rw [Compiler.declaration] at h
    split at h
    · simp only [Except.ok.injEq, Prod.mk.injEq] at h
      exact ⟨[], by rw [← h.1]; simp⟩
    · simp only [Bind.bind, Except.bind] at h
      rcases hs : Compiler.statement st with e | ⟨st1, ok1⟩
      · rw [hs] at h; simp at h
      · rw [hs] at h
        obtain ⟨d1, hd1⟩ := statement_errs_mono st st1 ok1 hs
        cases ok1 with
        | true =>
          simp only [if_true] at h
          obtain ⟨d2, hd2⟩ := ih st1 st' flag h
          exact ⟨d1 ++ d2, by rw [hd2, hd1, List.append_assoc]⟩
        | false =>
          simp only [Bool.false_eq_true, if_false, Except.ok.injEq,
            Prod.mk.injEq] at h
          exact ⟨d1, by rw [← h.1, hd1]⟩

/-- The compile driving loop only appends to the collected errors: a
diagnostic once recorded survives to the end of compilation. -/
theorem compileLoop_errs_mono : ∀ (f : Nat) (st st' : CState),
    Compiler.compileLoop f st = .ok st' →
    ∃ δ, st'.errs = st.errs ++ δ := by
  intro f
  induction f with
  | zero =>
    intro st st' h
    simp [Compiler.compileLoop] at h
    exact ⟨[], by rw [← h]; simp⟩
  | succ g ih =>
    intro st st' h
    rw [Compiler.compileLoop] at h
    split at h
    · simp only [Except.ok.injEq] at h
      exact ⟨[], by rw [← h]; simp⟩
    · simp only [Bind.bind, Except.bind] at h
      rcases hd : Compiler.declaration (st.tokens.length + 1) st with e | ⟨st1, flag⟩
      · rw [hd] at h; simp at h
      · rw [hd] at h
        obtain ⟨d1, hd1⟩ := declaration_errs_mono _ st st1 flag hd
        cases flag with
        | true =>
          obtain ⟨d2, hd2⟩ := ih st1 st' h
          exact ⟨d1 ++ d2, by rw [hd2, hd1, List.append_assoc]⟩
        | false =>
          obtain ⟨d2, hd2⟩ := ih st1.panic_mode_recovery st' h
          exact ⟨d1 ++ d2, by
            rw [hd2, panic_recovery_errs, hd1, List.append_assoc]⟩

/-- A completed compilation with a recorded MissingSemicolon is rejected
with exactly the recorded diagnostics, and the run exits 65 with no VM
and no output. -/
theorem compile_missing_semi_rejects (src : List Char) (ts : List LoxToken)
    (stFin : CState)
    (htok : tokenize src = ts.map Except.ok)
    (hloop : Compiler.compileLoop (ts.length + 1)
      { source := src, tokens := ts } = .ok stFin)
    (hmem : ∃ e ∈ stFin.errs, e.kind = .MissingSemicolon) :
    compile src = .ok (.error stFin.errs) ∧
    lox_run src = ⟨65, false, [], stFin.errs.map CompileErr.message⟩ := by
  have hne : stFin.errs.length > 0 := by
    obtain ⟨e, he, _⟩ := hmem
    exact List.length_pos.mpr (List.ne_nil_of_mem he)
  have hcc : Compiler.compile src ts = .ok (.error stFin.errs) := by
    rw [Compiler.compile]
    simp only [Bind.bind, Except.bind, hloop]
    simp [hne]
  have hc : compile src = .ok (.error stFin.errs) := by
    rw [compile_of_tokenize src ts htok, hcc]
  exact ⟨hc, lox_run_compile_error src stFin.errs hc⟩

/-- A statement whose head is Print and whose expression parses and emits
cleanly but is not followed by a Semicolon records MissingSemicolon and
signals Err, from any compiler state (any already-emitted chunks, errors
and constants). -/
theorem stmt_print_missing_semi (st : CState) (printSp : Span)
    (ts : List LoxToken) (st2 : CState)
    (htk : st.tokens = ⟨.Print, printSp⟩ :: ts)
    (hes : Compiler.expression_statement
      { st with
          tokens := ts, previous := st.current,
          current := some ⟨.Print, printSp⟩ } = .ok (st2, true))
    (hsemi : (st2.match_token .Semicolon).1 = false) :
    Compiler.statement st =
      .ok ({ st2 with
               chunks := st2.chunks ++ [st2.chunk OpCode.Print.toByte],
               errs := st2.errs ++ [st2.mkError .MissingSemicolon] }, false) := by
  have hcl : st.match_token .Class = (false, st) := by
    simp [CState.match_token, htk]
  have hfn : st.match_token .Fun = (false, st) := by
    simp [CState.match_token, htk]
  have hpr : st.match_token .Print =
      (true, { st with
                 tokens := ts, previous := st.current,
                 current := some ⟨.Print, printSp⟩ }) := by
    simp [CState.match_token, CState.next_token, htk]
  have h3 := match_token_false_ext .Semicolon st2
    ({ st2 with chunks := st2.chunks ++ [st2.chunk OpCode.Print.toByte] } : CState)
    rfl hsemi
  simp [Compiler.statement, hcl, hfn, hpr, hes, h3,
        Bind.bind, Except.bind, Except.instMonad]
  simp [CState.mkError, CState.location]

/-- The expression-statement analogue of stmt_print_missing_semi: any
leading token that is not one of the dedicated statement keywords. -/
theorem stmt_expr_missing_semi (st : CState) (t : LoxToken)
    (rest : List LoxToken) (st2 : CState)
    (h1 : t.kind ≠ .Class) (h2 : t.kind ≠ .Fun)
    (h3 : t.kind ≠ .Print) (h4 : t.kind ≠ .If)
    (htk : st.tokens = t :: rest)
    (hes : Compiler.expression_statement st = .ok (st2, true))
    (hsemi : (st2.match_token .Semicolon).1 = false) :
    Compiler.statement st =
      .ok ({ st2 with
               errs := st2.errs ++ [st2.mkError .MissingSemicolon] }, false) := by
  have hcl : st.match_token .Class = (false, st) := by
    simp [CState.match_token, htk, h1]
  have hfn : st.match_token .Fun = (false, st) := by
    simp [CState.match_token, htk, h2]
  have hpr : st.match_token .Print = (false, st) := by
    simp [CState.match_token, htk, h3]
  have hif : st.match_token .If = (false, st) := by
    simp [CState.match_token, htk, h4]
  have hm := match_token_false_ext .Semicolon st2 st2 rfl hsemi
  simp [Compiler.statement, hcl, hfn, hpr, hif, hes, hm,
        Bind.bind, Except.bind, Except.instMonad]

/-- The equality loop returns its accumulated tree unchanged when the next
token is neither EqualEqual nor BangEqual. -/
theorem pEqLoop_exit (f : Nat) (cur : BinaryTreeNode) (st : CState)
    (h1 : st.match_token .EqualEqual = (false, st))
    (h2 : st.match_token .BangEqual = (false, st)) :
    pEqLoop f cur st = (cur, st) := by
  cases f with
  | zero => rfl
  | succ g => simp [pEqLoop, h1, h2]

/-- The comparison loop returns its accumulated tree unchanged when the
next token is none of the four relational operators. -/
theorem pCmpLoop_exit (f : Nat) (cur : BinaryTreeNode) (st : CState)
    (h1 : st.match_token .Greater = (false, st))
    (h2 : st.match_token .GreaterEqual = (false, st))
    (h3 : st.match_token .Less = (false, st))
    (h4 : st.match_token .LessEqual = (false, st)) :
    pCmpLoop f cur st = (cur, st) := by
  cases f with
  | zero => rfl
  | succ g => simp [pCmpLoop, h1, h2, h3, h4]

/-- Claim C9: heap collection is idempotent.  For every heap state,
running collect_garbage twice in succession with no intervening
allocation (strong counts as data, so unchanged between the passes)
leaves the heap identical to the heap after the first pass: the second
sweep removes nothing and changes nothing. -/
theorem lox_collect_garbage_idempotent (h : ObjectHeap) :
    h.collect_garbage.collect_garbage = h.collect_garbage := by
  cases h with
  | mk l => simp [ObjectHeap.collect_garbage, List.filter_filter]

/-- Claim C8 (code bug): the claim says compile returns a diagnostics
list containing every tokenizer error that was encountered, but the
accumulation loop in the free compile function discards the FIRST
lexical error (its match arm only allocates the empty error vector).
Conjuncts: the source consisting of the single character at-sign
produces exactly one tokenizer error, yet compile returns Err with an
EMPTY diagnostics list; and in general, for an error result followed by
any tail, collectErrs yields exactly the errors of the tail, dropping
the head error. -/
theorem lox_first_lexical_error_dropped :
    ((tokenize ("@".toList)).filter
      (fun r => match r with | .error _ => true | .ok _ => false)).length = 1 ∧
    compile ("@".toList) = .ok (.error []) ∧
    (∀ (e : LoxParseErr) (rest : List (Except LoxParseErr LoxToken)),
      collectErrs (.error e :: rest) =
        some (rest.filterMap
          (fun r => match r with | .error e2 => some e2 | .ok _ => none))) := by
  refine ⟨by decide, by rfl, ?_⟩
  intro e rest
  have go : ∀ (l : List (Except LoxParseErr LoxToken)) (acc : List LoxParseErr),
      List.foldl
        (fun acc r =>
          match r with
          | .ok _ => acc
          | .error e =>
            match acc with
            | none => some []
            | some l => some (l ++ [e]))
        (some acc) l =
      some (acc ++ l.filterMap
        (fun r => match r with | .error e2 => some e2 | .ok _ => none)) := by
    intro l
    induction l with
    | nil => intro acc; simp
    | cons hd tl ih =>
      intro acc
      cases hd with
      | ok t => simpa using ih acc
      | error e2 => simpa using ih (acc ++ [e2])
  simp [collectErrs, go]

/-- Claim C3: the process exit code is determined exactly by the
outcome: 0 for successful execution and for termination by the fixed
iteration ceiling (a distinguished non-fatal outcome), 65 when compile
errors exist, 70 for an uncaught runtime error, 1 (ExitCode FAILURE,
distinct from 0, 65 and 70) for the caught internal VM panic raised by
decoding an unrecognized opcode byte.  Rust panic aborts (modelled 101,
also distinct) escape the mapping. -/
theorem lox_exit_code_mapping :
    (∀ p : List Char, (lox_run p).exit = specExitCode p) ∧
    ((1:Nat) ≠ 0 ∧ (1:Nat) ≠ 65 ∧ (1:Nat) ≠ 70) ∧
    ((101:Nat) ≠ 0 ∧ (101:Nat) ≠ 65 ∧ (101:Nat) ≠ 70) := by
  refine ⟨fun p => ?_, by decide, by decide⟩
  unfold lox_run specExitCode
  rcases hc : compile p with m | r
  · rfl
  · rcases r with errs | ⟨chunks, values⟩
    · rfl
    · dsimp only
      cases hv : VM.run (VM.new chunks values []) <;> rfl

/-- Claim C10: for every Value of the Object variant, to_string and the
Clone impl are todo macros, i.e. panics; consequently whenever a
Constant instruction executes with its pool slot holding an Object
(string) constant, read_constant clones the pooled value and the VM
dies with a Rust panic carrying the unchanged state (so no output is
produced and no RuntimeErr is reported). -/
theorem lox_object_constant_panics :
    (∀ o : Object, (Value.Object o).to_string = .error "not yet implemented") ∧
    (∀ o : Object, (Value.Object o).clone = .error "not yet implemented") ∧
    (∀ (st : VMState) (ch operand : Chunk) (o : Object),
      st.code[st.ip]? = some ch →
      OpCode.tryFrom ch.op = .ok .Constant →
      st.code[st.ip + 1]? = some operand →
      st.compiled_values[operand.op]? = some (.Object o) →
      VM.step st = .halt (.rustPanic "not yet implemented" st)) := by
  refine ⟨fun o => rfl, fun o => rfl, ?_⟩
  intro st ch operand o h1 h2 h3 h4
  simp [VM.step, h1, h2, VMState.read_constant, h3, h4, Value.clone]
  rfl

/-- Witness for claim C10: a VM about to execute Constant over a pool
whose slot 0 holds the string x dies with the Rust panic of the
unimplemented Clone, leaving its (empty) output untouched. -/
theorem lox_object_constant_panics_witness :
    VM.step { code := [⟨0, 0⟩, ⟨0, 0⟩],
              compiled_values := [.Object (.String ['x'])] } =
      .halt (.rustPanic "not yet implemented"
        { code := [⟨0, 0⟩, ⟨0, 0⟩],
          compiled_values := [.Object (.String ['x'])] }) ∧
    lox_run ("print \x22x\x22;".toList) =
      ⟨101, true, [], ["not yet implemented"]⟩ := by
  constructor
  · exact lox_object_constant_panics.2.2
      { code := [⟨0, 0⟩, ⟨0, 0⟩], compiled_values := [.Object (.String ['x'])] }
      ⟨0, 0⟩ ⟨0, 0⟩ (.String ['x']) rfl rfl rfl rfl
  · rfl

/-- Claim C6: executing Not on Nil pushes Boolean true, on a Boolean
pushes its negation, and on a Number or Object operand halts with a
RuntimeErr (BooleanOperationOnNumber resp. BooleanOperationOnObject)
carrying the instruction's source line — never a panic; and whenever the
VM halts with a RuntimeErr, run reports it with the bracketed line
message and exit code 70. -/
theorem lox_not_opcode_semantics :
    (∀ (st : VMState) (ch : Chunk) (v : Value) (rest : List Value),
      st.code[st.ip]? = some ch →
      OpCode.tryFrom ch.op = .ok .Not →
      st.runtime_values = v :: rest →
      rest.length < STACK_MAX →
      VM.step st =
        (match v with
         | .Nil => .cont { st with
             runtime_values := .Boolean true :: rest, ip := st.ip + 1 }
         | .Boolean b => .cont { st with
             runtime_values := .Boolean (!b) :: rest, ip := st.ip + 1 }
         | .Number _ => .halt (.runtimeErr ⟨ch.line, .BooleanOperationOnNumber⟩
             { st with runtime_values := rest })
         | .Object _ => .halt (.runtimeErr ⟨ch.line, .BooleanOperationOnObject⟩
             { st with runtime_values := rest }))) ∧
    (∀ (p : List Char) (chunks : List Chunk) (values : List Value)
       (e : RunTimeErr) (st' : VMState),
      compile p = .ok (.ok (chunks, values)) →
      VM.run (VM.new chunks values []) = .runtimeErr e st' →
      lox_run p = ⟨70, true, st'.output, [e.message]⟩) := by
  constructor
  · intro st ch v rest h1 h2 h3 h4
    cases v <;>
      simp [VM.step, h1, h2, h3, VMState.pop_value, VMState.push_value,
            Nat.not_le.mpr h4, VMState.bump]
  · intro p chunks values e st' hc hv
    simp [lox_run, hc, hv]

/-- Witness for claim C6: executing Not on the Number 1 at source line 7
is the BooleanOperationOnNumber runtime error at line 7, and the program
print-bang-one runs to exit code 70 with no program output. -/
theorem lox_not_opcode_semantics_witness :
    VM.step { code := [⟨7, 22⟩], compiled_values := [],
              runtime_values := [.Number 1] } =
      .halt (.runtimeErr ⟨7, .BooleanOperationOnNumber⟩
        { code := [⟨7, 22⟩], compiled_values := [], runtime_values := [] }) ∧
    lox_run ("print !1;".toList) =
      ⟨70, true, [], [RunTimeErr.message ⟨0, .BooleanOperationOnNumber⟩]⟩ := by
  constructor
  · exact lox_not_opcode_semantics.1
      { code := [⟨7, 22⟩], compiled_values := [], runtime_values := [.Number 1] }
      ⟨7, 22⟩ (.Number 1) [] rfl rfl rfl (by decide)
  · exact lox_not_opcode_semantics.2 ("print !1;".toList)
      [⟨0, 0⟩, ⟨0, 0⟩, ⟨0, 22⟩, ⟨0, 24⟩, ⟨0, 33⟩] [.Number 1]
      ⟨0, .BooleanOperationOnNumber⟩
      { code := [⟨0, 0⟩, ⟨0, 0⟩, ⟨0, 22⟩, ⟨0, 24⟩, ⟨0, 33⟩], ip := 2,
        compiled_values := [.Number 1], runtime_values := [] }
      rfl rfl

/-- Counterexample to claim C4 as stated: the claim says the Equal
opcode pops two values and pushes a Boolean, with operands of different
kinds comparing unequal.  On eqObjectNilState (two operands of different
kinds, the first-popped one an Object) the VM pops both operands and
pushes NOTHING: the resulting operand stack is empty, so no Boolean
false was pushed. -/
theorem lox_equal_opcode_counterexample :
    eqObjectNilState.runtime_values.length = 2 ∧
    ∃ st', VM.step eqObjectNilState = .cont st' ∧ st'.runtime_values = [] := by
  exact ⟨rfl, _, rfl, rfl⟩

/-- Claim C4, amended: the Equal opcode pops two values and pushes a
Boolean with no cross-type coercion — two Numbers compare by numeric
value, two interned strings compare by content, and operands of
different kinds compare unequal — EXCEPT when the first-popped (right)
operand is an Object and the other is not, in which case both operands
are popped and nothing at all is pushed.  The final conjunct records
that the source texts 1 and 1.0 denote the same numeric value, so the
claim's example 1 == 1.0 prints true. -/
theorem lox_equal_opcode_cases :
    (∀ (st : VMState) (ch : Chunk) (b a : Value) (rest : List Value),
      st.code[st.ip]? = some ch →
      OpCode.tryFrom ch.op = .ok .Equal →
      st.runtime_values = b :: a :: rest →
      rest.length < STACK_MAX →
      VM.step st =
        (match b with
         | .Nil => .cont { st with
             runtime_values :=
               .Boolean (match a with | .Nil => true | _ => false) :: rest,
             ip := st.ip + 1 }
         | .Boolean bb => .cont { st with
             runtime_values :=
               .Boolean (match a with
                         | .Boolean ab => ab = bb
                         | _ => false) :: rest,
             ip := st.ip + 1 }
         | .Number nb => .cont { st with
             runtime_values :=
               .Boolean (match a with
                         | .Number na => na = nb
                         | _ => false) :: rest,
             ip := st.ip + 1 }
         | .Object ob =>
           (match a with
            | .Object oa => .cont { st with
                runtime_values := .Boolean (oa = ob) :: rest,
                ip := st.ip + 1 }
            | _ => .cont { st with
                runtime_values := rest, ip := st.ip + 1 }))) ∧
    parseF64D ("1".toList) = parseF64D ("1.0".toList) := by
  constructor
  · intro st ch b a rest h1 h2 h3 h4
    cases b <;> cases a <;>
      simp [VM.step, h1, h2, h3, VMState.pop_value, VMState.push_value,
            Nat.not_le.mpr h4, VMState.bump]
  · simp [parseF64D, parseF64, digitsToNat, String.toList]

/-- Witness for claim C4 (amended): comparing the Numbers 1 and 1 pushes
Boolean true, and comparing the content-equal strings x and x pushes
Boolean true. -/
theorem lox_equal_opcode_cases_witness :
    VM.step { code := [⟨3, 15⟩], compiled_values := [],
              runtime_values := [.Number 1, .Number 1] } =
      .cont { code := [⟨3, 15⟩], ip := 1, compiled_values := [],
              runtime_values := [.Boolean true] } ∧
    VM.step { code := [⟨3, 15⟩], compiled_values := [],
              runtime_values := [.Object (.String ['x']),
                                 .Object (.String ['x'])] } =
      .cont { code := [⟨3, 15⟩], ip := 1, compiled_values := [],
              runtime_values := [.Boolean true] } := by
  constructor
  · exact lox_equal_opcode_cases.1
      { code := [⟨3, 15⟩], compiled_values := [],
        runtime_values := [.Number 1, .Number 1] }
      ⟨3, 15⟩ (.Number 1) (.Number 1) [] rfl rfl rfl (by decide)
  · exact lox_equal_opcode_cases.1
      { code := [⟨3, 15⟩], compiled_values := [],
        runtime_values := [.Object (.String ['x']), .Object (.String ['x'])] }
      ⟨3, 15⟩ (.Object (.String ['x'])) (.Object (.String ['x'])) []
      rfl rfl rfl (by decide)

/-- Counterexample to claim C7 as stated: the claim says the pool has a
fixed capacity of 256 entries and that all constants up to that capacity
are accepted.  In the code the capacity is STACK_MAX = u8 MAX = 255, not
256: emitting a constant into a pool holding 255 values — which a
256-entry pool would accept — records TooManyValues and leaves the pool
at 255. -/
theorem lox_constant_pool_counterexample :
    STACK_MAX ≠ 256 ∧
    emitNode fullPoolState false (.Leaf (.Value .Nil)) =
      .ok ({ fullPoolState with
               chunks := [⟨0, 0⟩],
               errs := [⟨.TooManyValues, ⟨0, 0, 0⟩⟩] }, false) ∧
    fullPoolState.values.length = 255 := by
  exact ⟨by decide, rfl, by decide⟩

/-- Claim C7, amended: the constant pool has a fixed capacity of
STACK_MAX = 255 entries (u8 MAX, addressed by a single unsigned byte
operand); for every compilation, a constant pushed while the pool is at
capacity records a TooManyValues compile error — returning ok, never
panicking — and every constant pushed while the pool is below capacity
is accepted and emitted with its pool index as the operand byte. -/
theorem lox_constant_pool_discipline :
    STACK_MAX = 255 ∧
    (∀ (st : CState) (he : Bool) (v : Value),
      emitNode st he (.Leaf (.Value v)) =
        (if st.values.length = STACK_MAX then
          .ok ({ st with
                   chunks := st.chunks ++ [st.chunk OpCode.Constant.toByte],
                   errs := st.errs ++ [st.mkError .TooManyValues] }, he)
        else
          .ok ({ st with
                   chunks := st.chunks ++ [st.chunk OpCode.Constant.toByte]
                     ++ [st.chunk st.values.length],
                   values := st.values ++ [v] }, he))) := by
  refine ⟨rfl, fun st he v => ?_⟩
  by_cases h : st.values.length = STACK_MAX <;>
    simp [emitNode, h, CState.chunk, CState.mkError, CState.location]

/-- Claim C5: the compiler has no dedicated opcodes for the bang-equal,
greater-equal and less-equal operators (OpCode enumerates none); when the
equality loop sees BangEqual it builds the Not-wrapped Equal node, and
when the comparison loop sees GreaterEqual (resp. LessEqual) it builds
the Not-wrapped Less (resp. Greater) node.  The dfs postorder that
expression_statement emits therefore places the left operand's nodes,
then the right operand's nodes, then the operator pair — so the two
instructions Equal-then-Not (resp. Less-then-Not, Greater-then-Not) are
emitted after the operands' bytecode, with to_bytecodes mapping each
synthesized operator to exactly one opcode. -/
theorem lox_synthesized_comparison_encoding :
    (∀ (f : Nat) (st st1 st1' st2 : CState) (l r : BinaryTreeNode),
      pComparison (f + 1) st = (l, st1) →
      st1.match_token .EqualEqual = (false, st1) →
      st1.match_token .BangEqual = (true, st1') →
      pComparison f st1' = (r, st2) →
      st2.match_token .EqualEqual = (false, st2) →
      st2.match_token .BangEqual = (false, st2) →
      pEquality (f + 2) st = (notWrap (binNode .Equal l r), st2) ∧
      (notWrap (binNode .Equal l r)).postorder =
        l.postorder ++ r.postorder ++ [opBranch .Equal, opBranch .Not] ∧
      Operator.Equal.to_bytecodes = .ok [.Equal] ∧
      Operator.Not.to_bytecodes = .ok [.Not]) ∧
    (∀ (f : Nat) (st st1 st1' st2 : CState) (l r : BinaryTreeNode),
      pTerm (f + 1) st = (l, st1) →
      st1.match_token .Greater = (false, st1) →
      st1.match_token .GreaterEqual = (true, st1') →
      pTerm f st1' = (r, st2) →
      st2.match_token .Greater = (false, st2) →
      st2.match_token .GreaterEqual = (false, st2) →
      st2.match_token .Less = (false, st2) →
      st2.match_token .LessEqual = (false, st2) →
      pComparison (f + 2) st = (notWrap (binNode .Less l r), st2) ∧
      (notWrap (binNode .Less l r)).postorder =
        l.postorder ++ r.postorder ++ [opBranch .Less, opBranch .Not] ∧
      Operator.Less.to_bytecodes = .ok [.Less] ∧
      Operator.Not.to_bytecodes = .ok [.Not]) ∧
    (∀ (f : Nat) (st st1 st1' st2 : CState) (l r : BinaryTreeNode),
      pTerm (f + 1) st = (l, st1) →
      st1.match_token .Greater = (false, st1) →
      st1.match_token .GreaterEqual = (false, st1) →
      st1.match_token .Less = (false, st1) →
      st1.match_token .LessEqual = (true, st1') →
      pTerm f st1' = (r, st2) →
      st2.match_token .Greater = (false, st2) →
      st2.match_token .GreaterEqual = (false, st2) →
      st2.match_token .Less = (false, st2) →
      st2.match_token .LessEqual = (false, st2) →
      pComparison (f + 2) st = (notWrap (binNode .Greater l r), st2) ∧
      (notWrap (binNode .Greater l r)).postorder =
        l.postorder ++ r.postorder ++ [opBranch .Greater, opBranch .Not] ∧
      Operator.Greater.to_bytecodes = .ok [.Greater] ∧
      Operator.Not.to_bytecodes = .ok [.Not]) := by
  refine ⟨?_, ?_, ?_⟩
  · intro f st st1 st1' st2 l r hl hee hbe hr he1 he2
    refine ⟨?_, by simp [BinaryTreeNode.postorder, notWrap, binNode], rfl, rfl⟩
    show pEquality (f + 1 + 1) st = _
    rw [pEquality, hl]
    show pEqLoop (f + 1) l st1 = _
    rw [pEqLoop]
    simp only [hee, hbe, hr]
    exact pEqLoop_exit f _ st2 he1 he2
  · intro f st st1 st1' st2 l r hl hg hge hr he1 he2 he3 he4
    refine ⟨?_, by simp [BinaryTreeNode.postorder, notWrap, binNode], rfl, rfl⟩
    show pComparison (f + 1 + 1) st = _
    rw [pComparison, hl]
    show pCmpLoop (f + 1) l st1 = _
    rw [pCmpLoop]
    simp only [hg, hge, hr]
    exact pCmpLoop_exit f _ st2 he1 he2 he3 he4
  · intro f st st1 st1' st2 l r hl hg hge hls hle hr he1 he2 he3 he4
    refine ⟨?_, by simp [BinaryTreeNode.postorder, notWrap, binNode], rfl, rfl⟩
    show pComparison (f + 1 + 1) st = _
    rw [pComparison, hl]
    show pCmpLoop (f + 1) l st1 = _
    rw [pCmpLoop]
    simp only [hg, hge, hls, hle, hr]
    exact pCmpLoop_exit f _ st2 he1 he2 he3 he4

/-- Witness for claim C5: parsing the three token streams 1 bang-equal 2,
1 greater-equal 2 and 1 less-equal 2 produces the Not-wrapped Equal,
Less and Greater trees respectively. -/
theorem lox_synthesized_comparison_encoding_witness :
    pEquality 11 (w5st0 ("1!=2".toList) w5tokNE) =
      (notWrap (binNode .Equal (value_node (.Number 1))
                               (value_node (.Number 2))),
       w5st2 ("1!=2".toList) w5tokNE) ∧
    pComparison 11 (w5st0 ("1>=2".toList) w5tokGE) =
      (notWrap (binNode .Less (value_node (.Number 1))
                              (value_node (.Number 2))),
       w5st2 ("1>=2".toList) w5tokGE) ∧
    pComparison 11 (w5st0 ("1<=2".toList) w5tokLE) =
      (notWrap (binNode .Greater (value_node (.Number 1))
                                 (value_node (.Number 2))),
       w5st2 ("1<=2".toList) w5tokLE) := by
  refine ⟨?_, ?_, ?_⟩
  · exact (lox_synthesized_comparison_encoding.1 9
      (w5st0 ("1!=2".toList) w5tokNE) (w5st1 ("1!=2".toList) w5tokNE)
      (w5st1c ("1!=2".toList) w5tokNE) (w5st2 ("1!=2".toList) w5tokNE)
      (value_node (.Number 1)) (value_node (.Number 2))
      rfl rfl rfl rfl rfl rfl).1
  · exact (lox_synthesized_comparison_encoding.2.1 9
      (w5st0 ("1>=2".toList) w5tokGE) (w5st1 ("1>=2".toList) w5tokGE)
      (w5st1c ("1>=2".toList) w5tokGE) (w5st2 ("1>=2".toList) w5tokGE)
      (value_node (.Number 1)) (value_node (.Number 2))
      rfl rfl rfl rfl rfl rfl rfl rfl).1
  · exact (lox_synthesized_comparison_encoding.2.2 9
      (w5st0 ("1<=2".toList) w5tokLE) (w5st1 ("1<=2".toList) w5tokLE)
      (w5st1c ("1<=2".toList) w5tokLE) (w5st2 ("1<=2".toList) w5tokLE)
      (value_node (.Number 1)) (value_node (.Number 2))
      rfl rfl rfl rfl rfl rfl rfl rfl rfl rfl).1

/-- Counterexample to claim C2 as stated: the claim quantifies over
EVERY source program containing a statement not terminated by a
Semicolon.  The program 1-and-2 (no semicolon) contains such an
expression statement, yet compilation does not record MissingSemicolon
and the exit code is not 65: the emitter reaches the todo panic in
Operator.to_bytecodes for the And operator first, so the process aborts
with a Rust panic (modelled exit 101). -/
theorem lox_missing_semicolon_counterexample :
    lox_run ("1 and 2".toList) = ⟨101, false, [], ["not yet implemented"]⟩ ∧
    (101 : Nat) ≠ 65 := by
  exact ⟨rfl, by decide⟩

/-- Claim C2, amended: whenever compilation completes without reaching an
unimplemented construct, every statement not terminated by a Semicolon is
rejected with exit code 65.  Formally, in four parts tracking the code:
(1) a print statement from ANY compiler state whose expression parses and
emits with no error leaf and whose next token is not a Semicolon records
a MissingSemicolon CompileErr and signals Err; (2) the same for an
expression statement (any leading token other than the Class, Fun, Print
and If keywords); (3) the compile driving loop only appends to the error
list, so a recorded diagnostic survives to the end of compilation; (4)
any completed compilation whose final state holds a MissingSemicolon
returns Err with exactly the recorded diagnostics, the VM is never
started, no program output is produced, and the process exits 65.
Programs that reach an unimplemented construct (and/or/assignment
operators, class/fun/if statements) instead abort in a Rust panic before
the semicolon check, as the counterexample shows. -/
theorem lox_missing_semicolon_rejected :
    (∀ (st : CState) (printSp : Span) (ts : List LoxToken) (st2 : CState),
      st.tokens = ⟨.Print, printSp⟩ :: ts →
      Compiler.expression_statement
        { st with
            tokens := ts, previous := st.current,
            current := some ⟨.Print, printSp⟩ } = .ok (st2, true) →
      (st2.match_token .Semicolon).1 = false →
      Compiler.statement st =
        .ok ({ st2 with
                 chunks := st2.chunks ++ [st2.chunk OpCode.Print.toByte],
                 errs := st2.errs ++ [st2.mkError .MissingSemicolon] }, false) ∧
      (st2.mkError .MissingSemicolon).kind = .MissingSemicolon) ∧
    (∀ (st : CState) (t : LoxToken) (rest : List LoxToken) (st2 : CState),
      t.kind ≠ .Class → t.kind ≠ .Fun → t.kind ≠ .Print → t.kind ≠ .If →
      st.tokens = t :: rest →
      Compiler.expression_statement st = .ok (st2, true) →
      (st2.match_token .Semicolon).1 = false →
      Compiler.statement st =
        .ok ({ st2 with
                 errs := st2.errs ++ [st2.mkError .MissingSemicolon] }, false) ∧
      (st2.mkError .MissingSemicolon).kind = .MissingSemicolon) ∧
    (∀ (f : Nat) (st stFin : CState),
      Compiler.compileLoop f st = .ok stFin →
      ∃ δ, stFin.errs = st.errs ++ δ) ∧
    (∀ (src : List Char) (ts : List LoxToken) (stFin : CState),
      tokenize src = ts.map Except.ok →
      Compiler.compileLoop (ts.length + 1)
        { source := src, tokens := ts } = .ok stFin →
      (∃ e ∈ stFin.errs, e.kind = .MissingSemicolon) →
      compile src = .ok (.error stFin.errs) ∧
      lox_run src = ⟨65, false, [], stFin.errs.map CompileErr.message⟩) := by
  refine ⟨?_, ?_, ?_, ?_⟩
  · intro st printSp ts st2 htk hes hsemi
    exact ⟨stmt_print_missing_semi st printSp ts st2 htk hes hsemi, rfl⟩
  · intro st t rest st2 h1 h2 h3 h4 htk hes hsemi
    exact ⟨stmt_expr_missing_semi st t rest st2 h1 h2 h3 h4 htk hes hsemi, rfl⟩
  · intro f st stFin h
    exact compileLoop_errs_mono f st stFin h
  · intro src ts stFin htok hloop hmem
    exact compile_missing_semi_rejects src ts stFin htok hloop hmem

/-- Witness for claim C2: part 1 at the print statement of the program
print-one, part 2 at the expression statement of the program one, part 3
at the compile loop of one-semicolon-two (the recorded MissingSemicolon
survives), and part 4 at the two multi-statement programs
one-semicolon-two (offending statement last, after a complete statement)
and print-one-two (offending statement followed by a further token):
both exit 65 with one MissingSemicolon diagnostic, no VM, no output. -/
theorem lox_missing_semicolon_rejected_witness :
    Compiler.statement { source := "print 1".toList,
                         tokens := [w2tokPrint, w2tokNum] } =
      .ok ({ w2st2print with
               chunks := w2st2print.chunks ++
                 [w2st2print.chunk OpCode.Print.toByte],
               errs := w2st2print.errs ++
                 [w2st2print.mkError .MissingSemicolon] }, false) ∧
    Compiler.statement { source := "1".toList, tokens := [w2tokNumBare] } =
      .ok ({ w2st2bare with
               errs := w2st2bare.errs ++
                 [w2st2bare.mkError .MissingSemicolon] }, false) ∧
    (∃ δ, w2fin12.errs = ([] : List CompileErr) ++ δ) ∧
    lox_run ("1; 2".toList) =
      ⟨65, false, [], ["[line: 0, column: 2] Error: MissingSemicolon"]⟩ ∧
    lox_run ("print 1 2".toList) =
      ⟨65, false, [], ["[line: 0, column: 1] Error: MissingSemicolon"]⟩ := by
  obtain ⟨p1, p2, p3, p4⟩ := lox_missing_semicolon_rejected
  refine ⟨?_, ?_, ?_, ?_, ?_⟩
  · exact (p1 { source := "print 1".toList, tokens := [w2tokPrint, w2tokNum] }
      ⟨⟨0,1,0⟩, ⟨0,6,5⟩⟩ [w2tokNum] w2st2print rfl rfl rfl).1
  · exact (p2 { source := "1".toList, tokens := [w2tokNumBare] }
      w2tokNumBare [] w2st2bare (by decide) (by decide) (by decide) (by decide)
      rfl rfl rfl).1
  · exact p3 (w2tok12.length + 1)
      { source := "1; 2".toList, tokens := w2tok12 } w2fin12 rfl
  · exact (p4 ("1; 2".toList) w2tok12 w2fin12 rfl rfl
      ⟨⟨.MissingSemicolon, ⟨0,2,1⟩⟩, by simp [w2fin12], rfl⟩).2
  · exact (p4 ("print 1 2".toList) w2tok1p2 w2fin1p2 rfl rfl
      ⟨⟨.MissingSemicolon, ⟨0,1,0⟩⟩, by simp [w2fin1p2], rfl⟩).2

/-- Claim C1: for every valid numeric literal — a source that tokenizes
as the three tokens Print, Number, Semicolon, with the Number token's
source slice parsing to the value q — compilation succeeds with the
four-byte program Constant, pool index 0, Print, implicit Return (the
first three tagged with the print line, Return with the literal's line),
and running it on the VM prints exactly one line, the text form of q,
then terminates successfully at the Return with exit code 0.  (f64 text
form is modelled by numToString over Rat, per the embedding header.) -/
theorem lox_print_number_pipeline (src : List Char) (sp1 sp2 sp3 : Span)
    (q : Rat)
    (htok : tokenize src =
      [.ok ⟨.Print, sp1⟩, .ok ⟨.Number, sp2⟩, .ok ⟨.Semicolon, sp3⟩])
    (hq : parseF64 (sliceSource src sp2.start.byte sp2.stop.byte) = some q) :
    compile src = .ok (.ok (
      [⟨sp1.start.line, 0⟩, ⟨sp1.start.line, 0⟩, ⟨sp1.start.line, 24⟩,
       ⟨sp2.start.line, 33⟩],
      [.Number q])) ∧
    lox_run src = ⟨0, true, [numToString q], []⟩ := by
  have hq' : parseF64D (sliceSource src sp2.start.byte sp2.stop.byte) = q := by
    simp [parseF64D, hq]
  have hc0 : compile src =
      Compiler.compile src [⟨.Print, sp1⟩, ⟨.Number, sp2⟩, ⟨.Semicolon, sp3⟩] :=
    compile_of_tokenize src _ (by simpa using htok)
  have hcc : Compiler.compile src [⟨.Print, sp1⟩, ⟨.Number, sp2⟩, ⟨.Semicolon, sp3⟩] =
      .ok (.ok (
        [⟨sp1.start.line, 0⟩, ⟨sp1.start.line, 0⟩, ⟨sp1.start.line, 24⟩,
         ⟨sp2.start.line, 33⟩],
        [.Number (parseF64D (sliceSource src sp2.start.byte sp2.stop.byte))])) := by
    rfl
  have hc : compile src = .ok (.ok (
      [⟨sp1.start.line, 0⟩, ⟨sp1.start.line, 0⟩, ⟨sp1.start.line, 24⟩,
       ⟨sp2.start.line, 33⟩],
      [.Number q])) := by
    rw [hc0, hcc, hq']
  refine ⟨hc, ?_⟩
  have hvm : VM.run (VM.new
      [⟨sp1.start.line, 0⟩, ⟨sp1.start.line, 0⟩, ⟨sp1.start.line, 24⟩,
       ⟨sp2.start.line, 33⟩] [.Number q] []) =
      .ok { code := [⟨sp1.start.line, 0⟩, ⟨sp1.start.line, 0⟩,
                     ⟨sp1.start.line, 24⟩, ⟨sp2.start.line, 33⟩],
            ip := 3, compiled_values := [.Number q],
            output := [numToString q] } := by
    rfl
  simp [lox_run, hc, hvm]

/-- Witness for claim C1: the program print-one-semicolon compiles to
the four-byte chunk and prints the line 1 with exit code 0, and the
program print-one-point-five-semicolon prints the decimal line 1.5 (the
literal parses to the rational three halves and numToString renders its
shortest exact decimal form). -/
theorem lox_print_number_pipeline_witness :
    (compile ("print 1;".toList) = .ok (.ok (
      [⟨0, 0⟩, ⟨0, 0⟩, ⟨0, 24⟩, ⟨0, 33⟩], [.Number 1])) ∧
     lox_run ("print 1;".toList) = ⟨0, true, ["1"], []⟩) ∧
    lox_run ("print 1.5;".toList) = ⟨0, true, ["1.5"], []⟩ := by
  refine ⟨lox_print_number_pipeline ("print 1;".toList)
    ⟨⟨0,1,0⟩, ⟨0,6,5⟩⟩ ⟨⟨0,7,6⟩, ⟨0,8,7⟩⟩ ⟨⟨0,8,7⟩, ⟨0,8,8⟩⟩ 1 rfl rfl, ?_⟩
  have hq : parseF64 (sliceSource ("print 1.5;".toList) 6 9) = some w1rat := by
    have h32 : ((3 : Int) : ℚ) / ((2 : Nat) : ℚ) = w1rat :=
      Rat.num_div_den w1rat
    simp [parseF64, sliceSource, digitsToNat]
    rw [← h32]
    norm_num
  exact (lox_print_number_pipeline ("print 1.5;".toList)
    ⟨⟨0,1,0⟩, ⟨0,6,5⟩⟩ ⟨⟨0,7,6⟩, ⟨0,10,9⟩⟩ ⟨⟨0,10,9⟩, ⟨0,10,10⟩⟩
    w1rat rfl hq).2

end Lox
